import Mathlib

/-!
Verification of the xmlsql repository: a shallow embedding, in Lean 4, of the
relational XML store (`src/document.rs`), the ingest state machine
(`src/parse.rs`, `src/builder.rs`), the type inferencer (`src/infer.rs`),
the selector adapter (`src/select.rs`) and the redactor (`src/redact.rs`),
together with theorems settling the specification's claims about them.

Conventions used throughout:
  * Rust `usize`/`u64` values are modelled as `Nat` (all arithmetic here is
    id/order bookkeeping that cannot overflow in any reachable scenario).
  * A rusqlite `Result` is modelled as `Except DbError`; `query_row` returns
    the first matching row or `DbError.queryReturnedNoRows`; `.optional()`
    converts that error into `Except.ok none`.
  * A Rust panic (`unwrap` on `Err`/`None`, `panic!`) is modelled as the
    distinguished error `DbError.panicked`.
  * The external value parsers used by `infer_type` (std's `f64` parser, the
    `uuid`, `speedate` and `serde_json` crates) are not code of this
    repository; they are abstracted as an `ExternalParsers` record of string
    acceptors, and (where a claim needs concrete classifications) are
    modelled from the spec's grammar descriptions in `specParsers`.
-/

/-! ### String helpers (models of the Rust std string functions used) -/

/-- Model of Rust `char::is_whitespace`: the Unicode `White_Space` property,
listed by code point. -/
def rustIsWhitespace (c : Char) : Bool :=
  let n := c.toNat
  (0x09 ≤ n && n ≤ 0x0D) || n == 0x20 || n == 0x85 || n == 0xA0 ||
  n == 0x1680 || (0x2000 ≤ n && n ≤ 0x200A) || n == 0x2028 || n == 0x2029 ||
  n == 0x202F || n == 0x205F || n == 0x3000

/-- Model of Rust `str::trim` on the character list: strip leading and
trailing Unicode whitespace. -/
def rustTrimList (l : List Char) : List Char :=
  ((l.dropWhile rustIsWhitespace).reverse.dropWhile rustIsWhitespace).reverse

/-- Model of Rust `str::trim`. -/
def rustTrim (s : String) : String :=
  ⟨rustTrimList s.data⟩

/-- ASCII lowercasing of one character (Rust `u8::to_ascii_lowercase`). -/
def charAsciiLower (c : Char) : Char :=
  if 'A' ≤ c && c ≤ 'Z' then Char.ofNat (c.toNat + 32) else c

/-- Model of Rust `str::to_ascii_lowercase`. -/
def toAsciiLower (s : String) : String :=
  ⟨s.data.map charAsciiLower⟩

/-- Model of Rust `str::to_lowercase` (Unicode simple lowercasing; it agrees
with `Char.toLower` on every string appearing in this development, all of
which are ASCII). -/
def rustToLowercase (s : String) : String :=
  ⟨s.data.map Char.toLower⟩

/-- Model of Rust `str::len`: the UTF-8 byte length. -/
def rustByteLen (s : String) : Nat :=
  (s.data.map Char.utf8Size).sum

/-- Model of Rust `str::parse::<u64>`: optional leading `+`, then one or more
ASCII digits, value below `2^64`. -/
def parseU64 (s : String) : Option Nat :=
  let cs := match s.data with
    | '+' :: rest => rest
    | cs => cs
  if cs.isEmpty then none
  else
    cs.foldl (fun acc c =>
      match acc with
      | none => none
      | some n =>
        if c.isDigit then
          let n' := n * 10 + (c.toNat - '0'.toNat)
          if n' < 2 ^ 64 then some n' else none
        else none) (some 0)

/-! ### The type inferencer (`src/infer.rs`) -/

/-- The closed set of classifications (`infer.rs`, `enum InferredType`).
The runtime payloads of `enum Inferred` (the parsed value) are erased by
`Inferred::as_type` before anything is stored, so only the classification is
modelled here. -/
inductive InferredType where
  | empty
  | whitespace
  | string
  | boolean
  | int
  | float
  | uuid
  | datetime
  | time
  | date
  | duration
  | json
deriving DecidableEq, Repr

/-- `InferredType::as_str` (`infer.rs`): the canonical lowercase tag. -/
def InferredType.asStr : InferredType → String
  | .empty => "empty"
  | .whitespace => "whitespace"
  | .string => "string"
  | .boolean => "boolean"
  | .int => "int"
  | .float => "float"
  | .uuid => "uuid"
  | .datetime => "datetime"
  | .time => "time"
  | .date => "date"
  | .duration => "duration"
  | .json => "json"

/-- `impl FromStr for InferredType` (`infer.rs`): the inverse mapping, failing
on unknown literals. -/
def inferredTypeOfStr : String → Option InferredType
  | "empty" => some .empty
  | "whitespace" => some .whitespace
  | "string" => some .string
  | "boolean" => some .boolean
  | "int" => some .int
  | "float" => some .float
  | "uuid" => some .uuid
  | "datetime" => some .datetime
  | "time" => some .time
  | "date" => some .date
  | "duration" => some .duration
  | "json" => some .json
  | _ => none

/-- The external value parsers invoked by `infer_type`, abstracted as string
acceptors (only the success/failure of each parse influences the
classification). -/
structure ExternalParsers where
  isF64 : String → Bool
  isUuid : String → Bool
  isDateTime : String → Bool
  isTime : String → Bool
  isDate : String → Bool
  isDuration : String → Bool
  isJson : String → Bool

/-- `infer_type` (`infer.rs` lines 103-161), translated clause by clause:
the empty check, the trim-based whitespace check, the length-guarded
ASCII-case-insensitive boolean checks, then the parser cascade. -/
def inferType (P : ExternalParsers) (input : String) : InferredType :=
  if input = "" then .empty
  else if rustTrim input = "" then .whitespace
  else if rustByteLen input == 4 && toAsciiLower input == "true" then .boolean
  else if rustByteLen input == 5 && toAsciiLower input == "false" then .boolean
  else if (parseU64 input).isSome then .int
  else if P.isF64 input then .float
  else if P.isUuid input then .uuid
  else if P.isDateTime input then .datetime
  else if P.isTime input then .time
  else if P.isDate input then .date
  else if P.isDuration input then .duration
  else if P.isJson input then .json
  else .string

/-- The classification stated by the spec (§4.A): the ordered,
first-match-wins list, written from the spec's words ("Empty if s is empty;
else Whitespace if all characters are whitespace; else Boolean for
case-insensitive true/false; else Int if s parses as u64; ...") for
comparison with the code's `inferType`. -/
def inferTypeSpec (P : ExternalParsers) (input : String) : InferredType :=
  if input = "" then .empty
  else if input.data.all rustIsWhitespace then .whitespace
  else if toAsciiLower input == "true" || toAsciiLower input == "false" then .boolean
  else if (parseU64 input).isSome then .int
  else if P.isF64 input then .float
  else if P.isUuid input then .uuid
  else if P.isDateTime input then .datetime
  else if P.isTime input then .time
  else if P.isDate input then .date
  else if P.isDuration input then .duration
  else if P.isJson input then .json
  else .string

/-! ### Equivalence of the code's classifier with the spec's ordered list -/

/-- Dropping the whitespace prefix of a list leaves nothing exactly when the
whole list is whitespace; applied at both ends this characterises
`rustTrimList`. -/
theorem rustTrimList_eq_nil_iff (l : List Char) :
    rustTrimList l = [] ↔ l.all rustIsWhitespace := by
  unfold rustTrimList
  rw [List.reverse_eq_nil_iff, List.dropWhile_eq_nil_iff, List.all_eq_true]
  constructor
  · intro h x hx
    rcases List.mem_append.mp
        ((List.takeWhile_append_dropWhile (p := rustIsWhitespace) (l := l)) ▸ hx) with h1 | h1
    · exact List.mem_takeWhile_imp h1
    · exact h x (List.mem_reverse.mpr h1)
  · intro h x hx
    exact h x ((List.dropWhile_sublist _).mem (List.mem_reverse.mp hx))

/-- Two strings are equal exactly when their character lists are. -/
theorem stringMk_eq_iff (l m : List Char) : (⟨l⟩ : String) = ⟨m⟩ ↔ l = m := by
  constructor
  · intro h
    exact congrArg String.data h
  · intro h
    rw [h]

/-- The trim-based emptiness test in `infer_type` agrees with the spec's
"all characters are whitespace" wording. -/
theorem rustTrim_eq_empty_iff (s : String) :
    (rustTrim s = "") ↔ s.data.all rustIsWhitespace = true := by
  unfold rustTrim
  rw [show ("" : String) = ⟨[]⟩ from rfl, stringMk_eq_iff]
  exact rustTrimList_eq_nil_iff s.data

/-- Characters in the one-byte UTF-8 range have `utf8Size` 1. -/
theorem utf8Size_eq_one_of_le (c : Char) (h127 : c.toNat ≤ 127) : c.utf8Size = 1 := by
  unfold Char.utf8Size
  have hv : c.val.toNat ≤ 127 := h127
  have h : c.val ≤ UInt32.ofNatCore 127 Char.utf8Size.proof_1 := by
    show c.val.toNat ≤ (UInt32.ofNatCore 127 Char.utf8Size.proof_1).toNat
    simpa [UInt32.ofNatCore, UInt32.toNat] using hv
  show (if c.val ≤ UInt32.ofNatCore 127 Char.utf8Size.proof_1 then 1
    else if c.val ≤ UInt32.ofNatCore 2047 Char.utf8Size.proof_2 then 2
    else if c.val ≤ UInt32.ofNatCore 65535 Char.utf8Size.proof_3 then 3 else 4) = 1
  rw [if_pos h]

/-- Valid code points below the surrogate range survive `Char.ofNat`. -/
theorem charOfNat_toNat (n : Nat) (h1 : (97:Nat) ≤ n) (h2 : n ≤ 122) :
    (Char.ofNat n).toNat = n := by
  have hval : n.isValidChar := Or.inl (by omega)
  unfold Char.ofNat
  split
  · simp [Char.ofNatAux, Char.toNat, UInt32.ofNat', UInt32.toNat,
      Nat.mod_eq_of_lt (by omega : n < 4294967296)]
  · rename_i h
    exact absurd hval h

/-- ASCII lowercasing never changes a character's UTF-8 width: the mapped
range `A`-`Z` and its image `a`-`z` are both one byte wide. -/
theorem charAsciiLower_utf8Size (c : Char) :
    (charAsciiLower c).utf8Size = c.utf8Size := by
  unfold charAsciiLower
  split
  · rename_i h
    obtain ⟨hA, hZ⟩ := Bool.and_eq_true _ _ |>.mp h
    have h1 : (65:Nat) ≤ c.toNat := by
      have := of_decide_eq_true hA
      exact this
    have h2 : c.toNat ≤ 90 := by
      have := of_decide_eq_true hZ
      exact this
    have hLower : (Char.ofNat (c.toNat + 32)).toNat = c.toNat + 32 :=
      charOfNat_toNat _ (by omega) (by omega)
    rw [utf8Size_eq_one_of_le _ (by omega), utf8Size_eq_one_of_le _ (by omega)]
  · rfl

/-- ASCII lowercasing preserves the UTF-8 byte length of a string. -/
theorem rustByteLen_toAsciiLower (s : String) :
    rustByteLen (toAsciiLower s) = rustByteLen s := by
  unfold rustByteLen toAsciiLower
  show ((s.data.map charAsciiLower).map Char.utf8Size).sum
      = (s.data.map Char.utf8Size).sum
  rw [List.map_map]
  congr 1
  exact List.map_congr_left fun c _ => charAsciiLower_utf8Size c

/-- The byte-length guard in front of the `"true"` comparison is redundant:
ASCII lowercasing preserves byte length, and `"true"` is 4 bytes. -/
theorem booleanGuardTrue (s : String) :
    (rustByteLen s == 4 && toAsciiLower s == "true") = (toAsciiLower s == "true") := by
  cases h : (toAsciiLower s == "true") with
  | false => simp [h]
  | true =>
    have he : toAsciiLower s = "true" := by simpa using h
    have hl : rustByteLen s = 4 := by
      rw [← rustByteLen_toAsciiLower, he]
      rfl
    simp [h, hl]

/-- The byte-length guard in front of the `"false"` comparison is redundant. -/
theorem booleanGuardFalse (s : String) :
    (rustByteLen s == 5 && toAsciiLower s == "false") = (toAsciiLower s == "false") := by
  cases h : (toAsciiLower s == "false") with
  | false => simp [h]
  | true =>
    have he : toAsciiLower s = "false" := by simpa using h
    have hl : rustByteLen s = 5 := by
      rw [← rustByteLen_toAsciiLower, he]
      rfl
    simp [h, hl]

/-- C3: for every input string and every behaviour of the external value
parsers, `infer_type` returns the first matching classification of the
spec's ordered list (Empty; Whitespace; Boolean; Int; Float; Uuid; DateTime;
Time; Date; Duration; Json; String), and, being a Lean function of the input
alone, is pure and total. -/
theorem c3_infer_type_ordered_first_match (P : ExternalParsers) (s : String) :
    inferType P s = inferTypeSpec P s := by
  unfold inferType inferTypeSpec
  rw [booleanGuardTrue, booleanGuardFalse]
  by_cases h0 : s = ""
  · simp [h0]
  · rw [if_neg h0, if_neg h0]
    by_cases hw : rustTrim s = ""
    · rw [if_pos hw, if_pos ((rustTrim_eq_empty_iff s).mp hw)]
    · rw [if_neg hw, if_neg (fun hh => hw ((rustTrim_eq_empty_iff s).mpr hh))]
      cases ht : (toAsciiLower s == "true") with
      | true => simp [ht]
      | false =>
        cases hf : (toAsciiLower s == "false") with
        | true => simp [ht, hf]
        | false => simp [ht, hf]

/-! ### The document store data model (`src/document.rs`, `src/model.rs`) -/

/-- `enum NodeType` (`document.rs`): the eight node kinds, stored as the
integers 0-7. -/
inductive NodeType where
  | document
  | element
  | text
  | cdata
  | comment
  | declaration
  | doctype
  | processingInstruction
deriving DecidableEq, Repr

/-- `impl From<NodeType> for u8`: the stored integer tag. -/
def NodeType.toNat : NodeType → Nat
  | .document => 0
  | .element => 1
  | .text => 2
  | .cdata => 3
  | .comment => 4
  | .declaration => 5
  | .doctype => 6
  | .processingInstruction => 7

/-- `impl TryFrom<u8> for NodeType`. -/
def nodeTypeOfNat : Nat → Option NodeType
  | 0 => some .document
  | 1 => some .element
  | 2 => some .text
  | 3 => some .cdata
  | 4 => some .comment
  | 5 => some .declaration
  | 6 => some .doctype
  | 7 => some .processingInstruction
  | _ => none

/-- One row of the `nodes` table. `inferred_type` is `none` when the store
was created without type inference (the column is absent) and `some tag`
otherwise. -/
structure NodeRow where
  node_id : Nat
  parent_node_id : Nat
  node_order : Nat
  node_type : NodeType
  node_ns : Option String
  node_name : Option String
  node_value : Option String
  buffer_position : Nat
  inferred_type : Option String
deriving DecidableEq, Repr

/-- One row of the `attrs` table. -/
structure AttrRow where
  attr_id : Nat
  attr_order : Nat
  attr_ns : Option String
  attr_name : String
  attr_value : String
  parent_node_id : Nat
  buffer_position : Nat
  inferred_type : Option String
deriving DecidableEq, Repr

/-- `ParseOptions` (`parse.rs`). -/
structure ParseOptions where
  ignore_whitespace : Bool := false
  infer_types : Bool := false
  case_insensitive : Bool := false
deriving DecidableEq, Repr

/-- The relational store: the two tables (kept in rowid order, which for the
`nodes` table is `node_id` order because ids are the INTEGER PRIMARY KEY)
plus the options the store was created with. -/
structure DocumentDb where
  nodes : List NodeRow
  attrs : List AttrRow
  options : ParseOptions
deriving DecidableEq, Repr

/-- The rusqlite error kinds reachable in this development. `panicked`
models a Rust panic (`unwrap`), not a returned error. -/
inductive DbError where
  | queryReturnedNoRows
  | invalidColumnType
  | invalidColumnIndex
  | sqlOther
  | panicked
deriving DecidableEq, Repr

/-- `model::Element`. -/
structure Element where
  node_id : Nat
  ns : Option String
  name : String
deriving DecidableEq, Repr

/-- `model::Attr`. -/
structure Attr where
  attr_id : Nat
  ns : Option String
  name : String
  value : String
deriving DecidableEq, Repr

/-- `model::Node`: the tagged-variant node record (`model.rs`). -/
inductive NodeRec where
  | element (e : Element)
  | text (node_id : Nat) (value : String)
  | comment (node_id : Nat) (value : String)
  | cdata (node_id : Nat) (value : String)
  | declaration (node_id : Nat) (value : String)
  | doctype (node_id : Nat) (value : String)
  | processingInstruction (node_id : Nat) (value : String)
deriving DecidableEq, Repr

/-- `Node::node_id` (`model.rs`). -/
def NodeRec.nodeId : NodeRec → Nat
  | .element e => e.node_id
  | .text i _ => i
  | .comment i _ => i
  | .cdata i _ => i
  | .declaration i _ => i
  | .doctype i _ => i
  | .processingInstruction i _ => i

/-- `impl From<RawNode> for Node` (`model.rs`): missing names/values become
the empty string; a `Document` row panics ("GlobalContext is not a supported
node type"). -/
def rawNodeInto (node_id : Nat) (nt : NodeType) (ns nm v : Option String) :
    Except DbError NodeRec :=
  match nt with
  | .element => .ok (.element ⟨node_id, ns, nm.getD ""⟩)
  | .text => .ok (.text node_id (v.getD ""))
  | .cdata => .ok (.cdata node_id (v.getD ""))
  | .comment => .ok (.comment node_id (v.getD ""))
  | .declaration => .ok (.declaration node_id (v.getD ""))
  | .doctype => .ok (.doctype node_id (v.getD ""))
  | .processingInstruction => .ok (.processingInstruction node_id (v.getD ""))
  | .document => .error .panicked

/-- SQL values as seen by the row mappers. -/
inductive SqlValue where
  | null
  | integer (i : Int)
  | text (s : String)
deriving DecidableEq, Repr

/-- Encoding of a nullable TEXT column. -/
def optStrSql : Option String → SqlValue
  | none => .null
  | some s => .text s

/-- `Row::get` with an out-of-range index: `InvalidColumnIndex`. -/
def rowGet (row : List SqlValue) (i : Nat) : Except DbError SqlValue :=
  match row.get? i with
  | some v => .ok v
  | none => .error .invalidColumnIndex

/-- `Row::get::<u8>`: only an in-range INTEGER converts. -/
def SqlValue.asU8 : SqlValue → Except DbError Nat
  | .integer i => if 0 ≤ i && i < 256 then .ok i.toNat else .error .invalidColumnType
  | _ => .error .invalidColumnType

/-- `Row::get::<usize>`: only a nonnegative INTEGER (an `Int.ofNat`)
converts. -/
def SqlValue.asUsize : SqlValue → Except DbError Nat
  | .integer (Int.ofNat n) => .ok n
  | _ => .error .invalidColumnType

/-- `Row::get::<Option<String>>`. -/
def SqlValue.asOptStr : SqlValue → Except DbError (Option String)
  | .null => .ok none
  | .text s => .ok (some s)
  | _ => .error .invalidColumnType

/-! ### The query surface (`src/document.rs`) -/

/-- The `query_map(...)?.collect::<Result<Vec<_>, _>>()` pattern used by the
multi-row reads: map the row converter over the rows, stopping at the first
error. -/
def collectRows {α β : Type} (f : α → Except DbError β) : List α → Except DbError (List β)
  | [] => .ok []
  | r :: rs =>
    match f r with
    | .error e => .error e
    | .ok x =>
      match collectRows f rs with
      | .error e => .error e
      | .ok xs => .ok (x :: xs)

/-- First row of `SELECT ... FROM nodes WHERE node_id = ?1` (rowid order). -/
def findNode (db : DocumentDb) (node_id : Nat) : Option NodeRow :=
  db.nodes.find? (fun r => r.node_id == node_id)

/-- First row of `SELECT ... FROM attrs WHERE attr_id = ?1`. -/
def findAttr (db : DocumentDb) (attr_id : Nat) : Option AttrRow :=
  db.attrs.find? (fun r => r.attr_id == attr_id)

/-- `DocumentDb::parent_element_id`. -/
def parentElementId (db : DocumentDb) (node_id : Nat) : Except DbError Nat :=
  match findNode db node_id with
  | some r => .ok r.parent_node_id
  | none => .error .queryReturnedNoRows

/-- Row with the greatest `node_order` (`ORDER BY node_order DESC LIMIT 1`;
sibling orders are unique in well-formed stores, so the tie-break is moot). -/
def maxByOrder (rows : List NodeRow) : Option NodeRow :=
  rows.foldl (fun best r =>
    match best with
    | none => some r
    | some b => if b.node_order < r.node_order then some r else some b) none

/-- Row with the least `node_order` (`ORDER BY node_order ASC LIMIT 1`). -/
def minByOrder (rows : List NodeRow) : Option NodeRow :=
  rows.foldl (fun best r =>
    match best with
    | none => some r
    | some b => if r.node_order < b.node_order then some r else some b) none

/-- `DocumentDb::prev_sibling_element_id` (`document.rs` lines 208-221).
The SQL selects rows under the same parent with a smaller `node_order`,
takes the one with the greatest order, and returns that row's
`parent_node_id` column (the column name in the outer SELECT). A scalar
subquery over an unknown id yields NULL, which compares false against
everything. -/
def prevSiblingElementId (db : DocumentDb) (node_id : Nat) : Except DbError Nat :=
  let parent? := (findNode db node_id).map (·.parent_node_id)
  let order? := (findNode db node_id).map (·.node_order)
  let rows := db.nodes.filter (fun r =>
    (match parent? with
     | some p => r.parent_node_id == p
     | none => false) &&
    (match order? with
     | some o => decide (r.node_order < o)
     | none => false))
  match maxByOrder rows with
  | some r => .ok r.parent_node_id
  | none => .error .queryReturnedNoRows

/-- `DocumentDb::next_sibling_element_id` (`document.rs` lines 223-236);
mirror image of `prevSiblingElementId`. -/
def nextSiblingElementId (db : DocumentDb) (node_id : Nat) : Except DbError Nat :=
  let parent? := (findNode db node_id).map (·.parent_node_id)
  let order? := (findNode db node_id).map (·.node_order)
  let rows := db.nodes.filter (fun r =>
    (match parent? with
     | some p => r.parent_node_id == p
     | none => false) &&
    (match order? with
     | some o => decide (o < r.node_order)
     | none => false))
  match minByOrder rows with
  | some r => .ok r.parent_node_id
  | none => .error .queryReturnedNoRows

/-- `DocumentDb::element`: `WHERE node_id = ?1 AND node_type = 1`; the
`node_name` column is read as a non-null String. -/
def elementQ (db : DocumentDb) (node_id : Nat) : Except DbError Element :=
  match db.nodes.find? (fun r => r.node_id == node_id && r.node_type == .element) with
  | none => .error .queryReturnedNoRows
  | some r =>
    match r.node_name with
    | some nm => .ok ⟨node_id, r.node_ns, nm⟩
    | none => .error .invalidColumnType

/-- `DocumentDb::node`. -/
def nodeQ (db : DocumentDb) (node_id : Nat) : Except DbError NodeRec :=
  match findNode db node_id with
  | none => .error .queryReturnedNoRows
  | some r => rawNodeInto node_id r.node_type r.node_ns r.node_name r.node_value

/-- `DocumentDb::buffer_position`. -/
def bufferPositionQ (db : DocumentDb) (node_id : Nat) : Except DbError Nat :=
  match findNode db node_id with
  | some r => .ok r.buffer_position
  | none => .error .queryReturnedNoRows

/-- `DocumentDb::attr_buffer_position`. -/
def attrBufferPositionQ (db : DocumentDb) (attr_id : Nat) : Except DbError Nat :=
  match findAttr db attr_id with
  | some r => .ok r.buffer_position
  | none => .error .queryReturnedNoRows

/-- Stable insertion into a list sorted by `node_order`. -/
def insertByOrder (r : NodeRow) : List NodeRow → List NodeRow
  | [] => [r]
  | x :: xs =>
    if x.node_order ≤ r.node_order then x :: insertByOrder r xs
    else r :: x :: xs

/-- Stable sort by `node_order` (`ORDER BY node_order`). -/
def sortByNodeOrder (l : List NodeRow) : List NodeRow :=
  l.foldr insertByOrder []

/-- `DocumentDb::child_nodes`: children of `parent_node_id`, excluding the
sentinel row (`node_id != 0`), sorted by `node_order`, each converted by
`RawNode::into`. -/
def childNodes (db : DocumentDb) (parent_node_id : Nat) : Except DbError (List NodeRec) :=
  let rows := sortByNodeOrder (db.nodes.filter (fun r =>
    r.parent_node_id == parent_node_id && r.node_id != 0))
  collectRows (fun r => rawNodeInto r.node_id r.node_type r.node_ns r.node_name r.node_value) rows

/-- `DocumentDb::children`: element children only, sorted by `node_order`. -/
def childrenQ (db : DocumentDb) (parent_node_id : Nat) : Except DbError (List Element) :=
  let rows := sortByNodeOrder (db.nodes.filter (fun r =>
    r.parent_node_id == parent_node_id && r.node_type == .element))
  collectRows (fun r =>
    match r.node_name with
    | some nm => .ok (⟨r.node_id, r.node_ns, nm⟩ : Element)
    | none => .error .invalidColumnType) rows

/-- `DocumentDb::children_by_name`: the input name is lowercased first when
the store is case-insensitive. -/
def childrenByName (db : DocumentDb) (parent_node_id : Nat) (element_name : String) :
    Except DbError (List Element) :=
  let element_name :=
    if db.options.case_insensitive then rustToLowercase element_name else element_name
  let rows := sortByNodeOrder (db.nodes.filter (fun r =>
    r.parent_node_id == parent_node_id && r.node_type == .element &&
    r.node_name == some element_name))
  collectRows (fun r =>
    match r.node_name with
    | some nm => .ok (⟨r.node_id, r.node_ns, nm⟩ : Element)
    | none => .error .invalidColumnType) rows

/-- `DocumentDb::attr`. -/
def attrQ (db : DocumentDb) (attr_id : Nat) : Except DbError Attr :=
  match findAttr db attr_id with
  | some a => .ok ⟨attr_id, a.attr_ns, a.attr_name, a.attr_value⟩
  | none => .error .queryReturnedNoRows

/-- `DocumentDb::attr_by_name` (`document.rs` lines 393-442): the input name
is lowercased when case-insensitive; `Some(ns)` filters `attr_ns = ns` (SQL
equality, which no NULL satisfies), `None` filters `attr_ns IS NULL`; the
returned record's name is the (possibly lowercased) query name. `query_row`
plus `.optional()` yields the first match or `none`. -/
def attrByName (db : DocumentDb) (node_id : Nat) (attr_name : String)
    (attr_ns : Option String) : Except DbError (Option Attr) :=
  let attr_name :=
    if db.options.case_insensitive then rustToLowercase attr_name else attr_name
  match attr_ns with
  | some ns =>
    .ok ((db.attrs.find? (fun a =>
        a.parent_node_id == node_id && a.attr_name == attr_name &&
        a.attr_ns == some ns)).map
      (fun a => ⟨a.attr_id, some ns, attr_name, a.attr_value⟩))
  | none =>
    .ok ((db.attrs.find? (fun a =>
        a.parent_node_id == node_id && a.attr_name == attr_name &&
        a.attr_ns == none)).map
      (fun a => ⟨a.attr_id, none, attr_name, a.attr_value⟩))

/-- `DocumentDb::attrs`: all attributes of a node, in table order. -/
def attrsQ (db : DocumentDb) (node_id : Nat) : Except DbError (List Attr) :=
  .ok ((db.attrs.filter (fun a => a.parent_node_id == node_id)).map
    (fun a => ⟨a.attr_id, a.attr_ns, a.attr_name, a.attr_value⟩))

/-- `DocumentDb::has_children`: `COUNT(*) > 0` over rows whose parent is the
given node. -/
def hasChildren (db : DocumentDb) (node_id : Nat) : Except DbError Bool :=
  .ok (db.nodes.any (fun r => r.parent_node_id == node_id))

/-- One round of the recursive CTE `descendents(parent_id)`: add every
`node_id` whose parent is already in the set (`UNION` deduplicates). -/
def descStep (db : DocumentDb) (s : List Nat) : List Nat :=
  s ++ ((db.nodes.filter (fun r =>
    s.contains r.parent_node_id && !(s.contains r.node_id))).map (·.node_id)).dedup

/-- Iterate the CTE step; `db.nodes.length + 1` rounds reach the fixpoint. -/
def descIter (db : DocumentDb) : Nat → List Nat → List Nat
  | 0, s => s
  | k + 1, s => descIter db k (descStep db s)

/-- The id set computed by the recursive CTE, seeded with the argument. -/
def descClosure (db : DocumentDb) (parent_node_id : Nat) : List Nat :=
  descIter db (db.nodes.length + 1) [parent_node_id]

/-- `DocumentDb::descendent_nodes` (`document.rs` lines 483-508). The SELECT
yields three columns (`node_id`, `node_ns`, `node_name`) but the row mapper
reads five, taking column 1 (`node_ns`, a TEXT/NULL column) as the `u8` node
type and columns 3 and 4 beyond the result width; the mapper is translated
index by index through `rowGet`. -/
def descNodesMapper (r : NodeRow) : Except DbError NodeRec := do
  let row := [SqlValue.integer (Int.ofNat r.node_id), optStrSql r.node_ns,
    optStrSql r.node_name]
  let nid ← (← rowGet row 0).asUsize
  let ntN ← (← rowGet row 1).asU8
  let nt ← match nodeTypeOfNat ntN with
    | some t => Except.ok t
    | none => Except.error DbError.panicked
  let ns ← (← rowGet row 2).asOptStr
  let nm ← (← rowGet row 3).asOptStr
  let v ← (← rowGet row 4).asOptStr
  rawNodeInto nid nt ns nm v

/-- `DocumentDb::descendent_nodes` -/
def descendentNodes (db : DocumentDb) (parent_node_id : Nat) :
    Except DbError (List NodeRec) :=
  let s := descClosure db parent_node_id
  let rows := db.nodes.filter (fun r => s.contains r.parent_node_id)
  collectRows descNodesMapper rows

/-- `DocumentDb::descendents` (`document.rs` lines 510-532): the element-only
recursive walk; here the three selected columns line up with the mapper. -/
def descendents (db : DocumentDb) (parent_node_id : Nat) : Except DbError (List Element) :=
  let s := descClosure db parent_node_id
  let rows := db.nodes.filter (fun r =>
    r.node_type == .element && s.contains r.parent_node_id)
  collectRows (fun r =>
    match r.node_name with
    | some nm => .ok (⟨r.node_id, r.node_ns, nm⟩ : Element)
    | none => .error .invalidColumnType) rows

/-- `DocumentDb::all_elements`. -/
def allElements (db : DocumentDb) : Except DbError (List Element) :=
  descendents db 0

/-- `DocumentDb::inferred_type`: on a store built without inference the
`inferred_type` column does not exist and preparing the statement fails
before any id is looked at; otherwise the stored tag of the row is parsed
back, `unwrap`ping the parse. -/
def inferredTypeQ (db : DocumentDb) (node_id : Nat) : Except DbError InferredType :=
  if !db.options.infer_types then .error .sqlOther
  else
    match findNode db node_id with
    | none => .error .queryReturnedNoRows
    | some r =>
      match r.inferred_type with
      | none => .error .invalidColumnType
      | some s =>
        match inferredTypeOfStr s with
        | some t => .ok t
        | none => .error .panicked

/-- `DocumentDb::node_raw_value`. -/
def nodeRawValue (db : DocumentDb) (node_id : Nat) : Except DbError (Option String) :=
  match findNode db node_id with
  | none => .error .queryReturnedNoRows
  | some r => .ok r.node_value

/-- `DocumentDb::attr_raw_value`. -/
def attrRawValue (db : DocumentDb) (attr_id : Nat) : Except DbError (Option String) :=
  match findAttr db attr_id with
  | none => .error .queryReturnedNoRows
  | some a => .ok a.attr_value

/-- `DocumentDb::attr_inferred_type`. -/
def attrInferredTypeQ (db : DocumentDb) (attr_id : Nat) : Except DbError InferredType :=
  if !db.options.infer_types then .error .sqlOther
  else
    match findAttr db attr_id with
    | none => .error .queryReturnedNoRows
    | some a =>
      match a.inferred_type with
      | none => .error .invalidColumnType
      | some s =>
        match inferredTypeOfStr s with
        | some t => .ok t
        | none => .error .panicked

/-- `DocumentDb::elements_matching_attr_value`: equality join of `attrs`
against element rows of `nodes`. -/
def elementsMatchingAttrValue (db : DocumentDb) (attr_name attr_value : String) :
    Except DbError (List Element) :=
  let attr_name :=
    if db.options.case_insensitive then rustToLowercase attr_name else attr_name
  let rows := (db.attrs.filter (fun a =>
    a.attr_name == attr_name && a.attr_value == attr_value)).filterMap
    (fun a => db.nodes.find? (fun n =>
      n.node_id == a.parent_node_id && n.node_type == .element))
  collectRows (fun r =>
    match r.node_name with
    | some nm => .ok (⟨r.node_id, r.node_ns, nm⟩ : Element)
    | none => .error .invalidColumnType) rows

/-! ### The selector adapter (`src/select.rs`) -/

/-- `ElementRef::is_empty` (`select.rs` lines 265-267): translated verbatim,
the adapter returns `has_children(node_id)` (note: no negation in the
source). -/
def selectIsEmpty (db : DocumentDb) (node_id : Nat) : Except DbError Bool :=
  hasChildren db node_id

/-- `selectors::attr::NamespaceConstraint` as it reaches `attr_matches`. -/
inductive NamespaceConstraintM where
  | any
  | specific (ns : String)
deriving DecidableEq, Repr

/-- The namespace normalisation at the top of `ElementRef::attr_matches`
(`select.rs` lines 173-177): `Any` and `Specific("")` both become `None`. -/
def normalizeNsConstraint : NamespaceConstraintM → Option String
  | .any => none
  | .specific ns => if ns == "" then none else some ns

/-- The store lookup performed by `ElementRef::attr_matches` (`select.rs`
lines 179-182): `attr_by_name` on the normalised namespace. The operator
evaluation on the returned value is independent of the store and not
modelled. -/
def attrMatchesLookup (db : DocumentDb) (node_id : Nat) (localName : String)
    (nsc : NamespaceConstraintM) : Except DbError (Option Attr) :=
  attrByName db node_id localName (normalizeNsConstraint nsc)

/-! ### The ingest pipeline (`src/parse.rs`, `src/builder.rs`)

The tokenizer (the external `xmlparser` crate) is not modelled; ingest is
embedded as a fold over its token stream. The producer/consumer channel only
sequences the builder calls, so the fold applies each insert directly. -/

/-- The `xmlparser::Token` variants consumed by `parse` (each carrying the
span start used as `buffer_position`). -/
inductive XmlToken where
  | declaration (pos : Nat)
  | processingInstruction (pos : Nat)
  | comment (text : String) (pos : Nat)
  | dtdStart (pos : Nat)
  | emptyDtd
  | entityDeclaration
  | dtdEnd
  | elementStart (pfx : String) (localName : String) (pos : Nat)
  | attribute (pfx : String) (localName : String) (value : String) (pos : Nat)
  | elementEndOpen
  | elementEndClose
  | elementEndEmpty
  | text (t : String) (pos : Nat)
  | cdata (t : String) (pos : Nat)
deriving DecidableEq, Repr

/-- `ParserStateValue` (`parse.rs`). -/
inductive ParserStateValue where
  | document
  | root
  | element (node_id : Nat)
deriving DecidableEq, Repr

/-- `ParserState` (`parse.rs`): the element stack and the per-frame child
order counters; the head of each list is the top of the Rust `Vec`. -/
structure ParserState where
  stack : List ParserStateValue := []
  context_order : Nat := 0
  order : List Nat := []
deriving DecidableEq, Repr

/-- `ParserState::current`. -/
def ParserState.current (st : ParserState) : ParserStateValue :=
  match st.stack with
  | x :: _ => x
  | [] => .document

/-- `ParserState::current_order`. -/
def ParserState.currentOrder (st : ParserState) : Nat :=
  match st.order with
  | v :: _ => v
  | [] => st.context_order

/-- `ParserState::increment_order`. -/
def ParserState.incrementOrder (st : ParserState) : ParserState :=
  match st.order with
  | x :: xs => { st with order := (x + 1) :: xs }
  | [] => { st with context_order := st.context_order + 1 }

/-- `ParserState::parent_node_id`. -/
def ParserState.parentNodeId (st : ParserState) : Nat :=
  match st.current with
  | .document => 0
  | .root => 1
  | .element v => v

/-- `ParserState::push`. -/
def ParserState.push (st : ParserState) (v : ParserStateValue) : ParserState :=
  { st with stack := v :: st.stack, order := 0 :: st.order }

/-- `ParserState::pop`. -/
def ParserState.pop (st : ParserState) : ParserState :=
  { st with stack := st.stack.tail, order := st.order.tail }

/-- `mutate_text` (`parse.rs` lines 139-146): trim and/or lowercase according
to the options. -/
def mutateText (options : ParseOptions) (t : String) : String :=
  match options.ignore_whitespace, options.case_insensitive with
  | true, true => rustToLowercase (rustTrim t)
  | true, false => rustTrim t
  | false, true => rustToLowercase t
  | false, false => t

/-- The value stored for a `Token::Text` node (`parse.rs` lines 336-340):
only trimmed when `ignore_whitespace`; `mutate_text` is not applied, so the
case is kept. The Comment and Cdata arms compute the same expression. -/
def rawTextValue (options : ParseOptions) (t : String) : String :=
  if options.ignore_whitespace then rustTrim t else t

/-- `DocumentDbBuilder::insert_node` (`builder.rs` lines 126-183): appends a
row; with inference on, the stored tag classifies `node_value` (or `Empty`
for NULL). -/
def insertNodeRow (P : ExternalParsers) (db : DocumentDb) (node_id parent_node_id : Nat)
    (nt : NodeType) (ns nm v : Option String) (pos ord : Nat) : DocumentDb :=
  let inferred :=
    if db.options.infer_types then
      some ((match v with
        | some s => inferType P s
        | none => InferredType.empty).asStr)
    else none
  { db with nodes := db.nodes ++
      [⟨node_id, parent_node_id, ord, nt, ns, nm, v, pos, inferred⟩] }

/-- `DocumentDbBuilder::insert_attr` (`builder.rs` lines 186-230): the
`attr_id` is the SQLite rowid, assigned consecutively from 1. -/
def insertAttrRow (P : ExternalParsers) (db : DocumentDb) (parent_node_id : Nat)
    (ns : Option String) (nm v : String) (pos ord : Nat) : DocumentDb :=
  let inferred :=
    if db.options.infer_types then some ((inferType P v).asStr) else none
  { db with attrs := db.attrs ++
      [⟨db.attrs.length + 1, ord, ns, nm, v, parent_node_id, pos, inferred⟩] }

/-- `DocumentDbBuilder::insert_root_element` (`builder.rs` lines 233-253):
updates row 1 in place, leaving its other columns (including
`inferred_type`) untouched. -/
def insertRootElement (db : DocumentDb) (ns nm : Option String) (pos ord : Nat) :
    DocumentDb :=
  { db with nodes := db.nodes.map (fun r =>
      if r.node_id == 1 then
        { r with node_ns := ns, node_name := nm, buffer_position := pos, node_order := ord }
      else r) }

/-- The freshly created store (`document.rs`, `SQL_SIMPLE`/`SQL_WITH_TYPES`):
the document sentinel (id 0, its own parent) and the root-element
placeholder (id 1), both tagged `'empty'` when inference is on. -/
def emptyDb (options : ParseOptions) : DocumentDb :=
  let it := if options.infer_types then some "empty" else none
  { nodes := [
      ⟨0, 0, 0, .document, none, none, none, 0, it⟩,
      ⟨1, 0, 0, .element, none, none, none, 0, it⟩],
    attrs := [],
    options := options }

/-- `parse_start_event` (`parse.rs` lines 8-48). -/
def parseStartEvent (P : ExternalParsers) (localName : String) (pfx : Option String)
    (pos : Nat) (st : ParserState) (nodeIdCount : Nat) (db : DocumentDb) :
    ParserState × Nat × DocumentDb :=
  let parent := st.parentNodeId
  match st.current with
  | .document =>
    let db := insertRootElement db pfx (some localName) pos st.currentOrder
    (st.incrementOrder.push .root, nodeIdCount, db)
  | _ =>
    let nodeId := nodeIdCount
    let db := insertNodeRow P db nodeId parent .element pfx (some localName) none pos
      st.currentOrder
    (st.incrementOrder.push (.element nodeId), nodeIdCount + 1, db)

/-- One iteration of the token loop in `parse` (`parse.rs` lines 199-366). -/
def parseStep (P : ExternalParsers) (options : ParseOptions)
    (acc : ParserState × Nat × DocumentDb) (tok : XmlToken) :
    ParserState × Nat × DocumentDb :=
  let (st, nodeIdCount, db) := acc
  let parent := st.parentNodeId
  match tok with
  | .declaration pos =>
    (st.incrementOrder, nodeIdCount + 1,
      insertNodeRow P db nodeIdCount parent .declaration none none none pos st.currentOrder)
  | .processingInstruction pos =>
    (st.incrementOrder, nodeIdCount + 1,
      insertNodeRow P db nodeIdCount parent .processingInstruction none none none pos
        st.currentOrder)
  | .comment t pos =>
    (st.incrementOrder, nodeIdCount + 1,
      insertNodeRow P db nodeIdCount parent .comment none none
        (some (rawTextValue options t)) pos st.currentOrder)
  | .dtdStart pos =>
    (st.incrementOrder, nodeIdCount + 1,
      insertNodeRow P db nodeIdCount parent .doctype none none none pos st.currentOrder)
  | .emptyDtd => acc
  | .entityDeclaration => acc
  | .dtdEnd => acc
  | .elementStart pfx localName pos =>
    let localName := mutateText options localName
    let pfx := if pfx != "" then some (mutateText options pfx) else none
    parseStartEvent P localName pfx pos st nodeIdCount db
  | .attribute pfx localName v pos =>
    let pfx := if pfx != "" then some (mutateText options pfx) else none
    let localName := if localName != "" then some (mutateText options localName) else none
    (st.incrementOrder, nodeIdCount,
      insertAttrRow P db parent pfx (localName.getD "") v pos st.currentOrder)
  | .elementEndOpen => acc
  | .elementEndClose => (st.pop, nodeIdCount, db)
  | .elementEndEmpty => (st.pop, nodeIdCount, db)
  | .text t pos =>
    (st.incrementOrder, nodeIdCount + 1,
      insertNodeRow P db nodeIdCount parent .text none none
        (some (rawTextValue options t)) pos st.currentOrder)
  | .cdata t pos =>
    (st.incrementOrder, nodeIdCount + 1,
      insertNodeRow P db nodeIdCount parent .cdata none none
        (some (rawTextValue options t)) pos st.currentOrder)

/-- `parse` (`parse.rs` lines 148-373): fold the token stream over a fresh
store; node ids are allocated by the producer starting at 2. -/
def parseTokens (P : ExternalParsers) (options : ParseOptions)
    (tokens : List XmlToken) : DocumentDb :=
  (tokens.foldl (parseStep P options) (⟨{}, 2, emptyDb options⟩ :
    ParserState × Nat × DocumentDb)).2.2

/-! ### The redactor (`src/redact.rs`) -/

/-- `IgnoreRule` (`redact.rs`). -/
structure IgnoreRule where
  tag : String
  value : Bool
  attrs : List String
deriving DecidableEq, Repr

/-- `Mask` (`redact.rs`). -/
structure MaskOpts where
  uuids : Bool
deriving DecidableEq, Repr

/-- `Options` (`redact.rs`). -/
structure RedactOptions where
  ignore : List IgnoreRule
  mask : MaskOpts
deriving DecidableEq, Repr

/-- The scrub replacement literal per classification (`scrub_node` /
`scrub_attr`, `redact.rs` lines 24-57 and 79-112): `none` means the early
`return` that leaves the value unchanged. -/
def scrubValue : InferredType → Option String
  | .empty => none
  | .whitespace => none
  | .boolean => none
  | .json => none
  | .string => some "[redacted]"
  | .int => some "0"
  | .float => some "0.123"
  | .uuid => some "00000000-0000-0000-0000-000000000000"
  | .datetime => some "1970-01-01T00:00:00Z"
  | .time => some "00:00:00"
  | .date => some "1970-01-01"
  | .duration => some "55:55:55"

/-- `UPDATE nodes SET node_value = ?1 WHERE node_id = ?2`. -/
def updateNodeValue (db : DocumentDb) (node_id : Nat) (v : String) : DocumentDb :=
  { db with nodes := db.nodes.map (fun r =>
      if r.node_id == node_id then { r with node_value := some v } else r) }

/-- `UPDATE attrs SET attr_value = ?1 WHERE attr_id = ?2`. -/
def updateAttrValue (db : DocumentDb) (attr_id : Nat) (v : String) : DocumentDb :=
  { db with attrs := db.attrs.map (fun a =>
      if a.attr_id == attr_id then { a with attr_value := v } else a) }

/-- `scrub_node`: overwrite the node value with the scrub literal, or leave
it unchanged for the preserved classifications. -/
def scrubNodeDb (out : DocumentDb) (node_id : Nat) (ty : InferredType) : DocumentDb :=
  match scrubValue ty with
  | none => out
  | some v => updateNodeValue out node_id v

/-- `scrub_attr`. -/
def scrubAttrDb (out : DocumentDb) (attr_id : Nat) (ty : InferredType) : DocumentDb :=
  match scrubValue ty with
  | none => out
  | some v => updateAttrValue out attr_id v

/-- `mask_node` (`redact.rs` lines 59-77): only when UUID masking is on and
the classification is Uuid, rewrite with `UUIDv5(seed, trim(original))`;
`uuidv5` abstracts the external `Uuid::new_v5`, `seed` the session seed. -/
def maskNode (db : DocumentDb) (opts : RedactOptions) (uuidv5 : String → String → String)
    (seed : String) (out : DocumentDb) (node_id : Nat) (ty : InferredType) :
    Except DbError DocumentDb :=
  if opts.mask.uuids && ty == .uuid then do
    let v ← nodeRawValue db node_id
    match v with
    | none => .error .panicked
    | some v => .ok (updateNodeValue out node_id (uuidv5 seed (rustTrim v)))
  else .ok out

/-- `mask_attr` (`redact.rs` lines 114-132); unlike `mask_node` the original
value is not trimmed. -/
def maskAttr (db : DocumentDb) (opts : RedactOptions) (uuidv5 : String → String → String)
    (seed : String) (out : DocumentDb) (attr_id : Nat) (ty : InferredType) :
    Except DbError DocumentDb :=
  if opts.mask.uuids && ty == .uuid then do
    let v ← attrRawValue db attr_id
    match v with
    | none => .error .panicked
    | some v => .ok (updateAttrValue out attr_id (uuidv5 seed v))
  else .ok out

/-- The body of the element loop in `redact` (`redact.rs` lines 146-233).
In the branch with no matched ignore rules, the per-child inferred type is
looked up with `node.node_id` — the parent element's id — while the branch
with matched rules uses `child_node.node_id()`; both lookups are translated
as written. -/
def redactElement (db : DocumentDb) (opts : RedactOptions)
    (uuidv5 : String → String → String) (seed : String) (out : DocumentDb)
    (el : Element) : Except DbError DocumentDb := do
  let matchedRules := opts.ignore.filter (fun x => x.tag == el.name)
  let ty ← inferredTypeQ db el.node_id
  let out ← maskNode db opts uuidv5 seed out el.node_id ty
  if matchedRules.isEmpty then do
    let out := scrubNodeDb out el.node_id ty
    let cns ← childNodes db el.node_id
    let out ← cns.foldlM (fun out cn => do
      let ty2 ← inferredTypeQ db el.node_id
      match cn with
      | .text i _ => do
        let out ← maskNode db opts uuidv5 seed out i ty2
        pure (scrubNodeDb out i ty2)
      | .comment i _ => do
        let out ← maskNode db opts uuidv5 seed out i ty2
        pure (scrubNodeDb out i ty2)
      | .cdata i _ => do
        let out ← maskNode db opts uuidv5 seed out i ty2
        pure (scrubNodeDb out i ty2)
      | _ => pure out) out
    let ats ← attrsQ db el.node_id
    ats.foldlM (fun out a => do
      let tyA ← attrInferredTypeQ db a.attr_id
      let out ← maskAttr db opts uuidv5 seed out a.attr_id tyA
      pure (scrubAttrDb out a.attr_id tyA)) out
  else
    matchedRules.foldlM (fun out rule => do
      let out ←
        if !rule.value then do
          let out := scrubNodeDb out el.node_id ty
          let cns ← childNodes db el.node_id
          cns.foldlM (fun out cn => do
            let ty2 ← inferredTypeQ db cn.nodeId
            match cn with
            | .text i _ => do
              let out ← maskNode db opts uuidv5 seed out i ty2
              pure (scrubNodeDb out i ty2)
            | .comment i _ => do
              let out ← maskNode db opts uuidv5 seed out i ty2
              pure (scrubNodeDb out i ty2)
            | .cdata i _ => do
              let out ← maskNode db opts uuidv5 seed out i ty2
              pure (scrubNodeDb out i ty2)
            | _ => pure out) out
        else pure out
      let ats ← attrsQ db el.node_id
      ats.foldlM (fun out a => do
        let tyA ← attrInferredTypeQ db a.attr_id
        if !(rule.attrs.contains a.name) then do
          let out ← maskAttr db opts uuidv5 seed out a.attr_id tyA
          pure (scrubAttrDb out a.attr_id tyA)
        else pure out) out) out

/-- `redact` (`redact.rs` lines 134-237): iterate every element of the source
store `db`, applying the updates to `out` (the caller passes a copy of the
store); reads always go to `db`. -/
def redact (db out : DocumentDb) (opts : RedactOptions)
    (uuidv5 : String → String → String) (seed : String) : Except DbError DocumentDb := do
  let els ← allElements db
  els.foldlM (redactElement db opts uuidv5 seed) out

/-! ### Spec-modelled external value parsers

The acceptors below stand in for the external crates invoked by
`infer_type`; they are modelled from the spec's grammar descriptions
(§4.A), not from repository code, and are only used to instantiate
`ExternalParsers` where a claim needs concrete classifications. -/

/-- ASCII decimal digit test. -/
def isAsciiDigit (c : Char) : Bool := '0' ≤ c && c ≤ '9'

/-- ASCII hexadecimal digit test. -/
def isAsciiHexDigit (c : Char) : Bool :=
  isAsciiDigit c || ('a' ≤ c && c ≤ 'f') || ('A' ≤ c && c ≤ 'F')

/-- Numeric value of a digit list (most significant first). -/
def digitsVal (cs : List Char) : Nat :=
  cs.foldl (fun n c => n * 10 + (c.toNat - '0'.toNat)) 0

/-- Modelled from the spec: the mantissa of the documented grammar of std's
`f64` parser ("parses as 64-bit float"): digits, digits-dot-digits,
digits-dot, or dot-digits. -/
def f64Mantissa (cs : List Char) : Bool :=
  match cs.findIdx? (fun c => c == '.') with
  | none => !cs.isEmpty && cs.all isAsciiDigit
  | some i =>
    let a := cs.take i
    let b := cs.drop (i + 1)
    !b.contains '.' && a.all isAsciiDigit && b.all isAsciiDigit &&
      (!a.isEmpty || !b.isEmpty)

/-- Modelled from the spec: the exponent part of the `f64` grammar. -/
def f64Exponent (cs : List Char) : Bool :=
  let cs := match cs with
    | '+' :: r => r
    | '-' :: r => r
    | r => r
  !cs.isEmpty && cs.all isAsciiDigit

/-- Modelled from the spec: acceptor for "parses as 64-bit float" (std's
documented `f64` grammar: optional sign; `inf`, `infinity` or `nan`
case-insensitively; or mantissa with optional exponent). -/
def isF64Rust (s : String) : Bool :=
  let cs := match s.data with
    | '+' :: r => r
    | '-' :: r => r
    | r => r
  let low := cs.map charAsciiLower
  if low == "inf".data || low == "infinity".data || low == "nan".data then true
  else
    match cs.findIdx? (fun c => c == 'e' || c == 'E') with
    | none => f64Mantissa cs
    | some i => f64Mantissa (cs.take i) && f64Exponent (cs.drop (i + 1))

/-- Modelled from the spec: acceptor for "parses as RFC 4122 UUID" (the
8-4-4-4-12 hyphenated hexadecimal text form). -/
def isUuidSpec (s : String) : Bool :=
  let cs := s.data
  cs.length == 36 && (List.range 36).all (fun i =>
    match cs.get? i with
    | some c =>
      if i == 8 || i == 13 || i == 18 || i == 23 then c == '-' else isAsciiHexDigit c
    | none => false)

/-- Number of days of a month, with the Gregorian leap rule. -/
def daysInMonth (y m : Nat) : Nat :=
  if m == 2 then
    if y % 4 == 0 && (y % 100 != 0 || y % 400 == 0) then 29 else 28
  else if m == 4 || m == 6 || m == 9 || m == 11 then 30
  else 31

/-- Modelled from the spec: acceptor for "parses as calendar date"
(`YYYY-MM-DD` with valid month and day). -/
def isDateChars (cs : List Char) : Bool :=
  match cs with
  | [y1, y2, y3, y4, '-', m1, m2, '-', d1, d2] =>
    [y1, y2, y3, y4, m1, m2, d1, d2].all isAsciiDigit &&
    (let y := digitsVal [y1, y2, y3, y4]
     let m := digitsVal [m1, m2]
     let d := digitsVal [d1, d2]
     1 ≤ m && m ≤ 12 && 1 ≤ d && d ≤ daysInMonth y m)
  | _ => false

/-- Modelled from the spec: acceptor for "parses as time-of-day"
(`HH:MM`, `HH:MM:SS` or `HH:MM:SS.fraction`, hours below 24). -/
def isTimeChars (cs : List Char) : Bool :=
  match cs with
  | h1 :: h2 :: ':' :: m1 :: m2 :: rest =>
    [h1, h2, m1, m2].all isAsciiDigit &&
    digitsVal [h1, h2] ≤ 23 && digitsVal [m1, m2] ≤ 59 &&
    (match rest with
     | [] => true
     | ':' :: s1 :: s2 :: rest2 =>
       [s1, s2].all isAsciiDigit && digitsVal [s1, s2] ≤ 59 &&
       (match rest2 with
        | [] => true
        | '.' :: fs => !fs.isEmpty && fs.all isAsciiDigit
        | _ => false)
     | _ => false)
  | _ => false

/-- A trailing RFC 3339 offset: `Z`, `z`, or `±HH:MM`. -/
def isOffsetChars (cs : List Char) : Bool :=
  match cs with
  | ['Z'] => true
  | ['z'] => true
  | [sgn, o1, o2, ':', o3, o4] =>
    (sgn == '+' || sgn == '-') && [o1, o2, o3, o4].all isAsciiDigit &&
    digitsVal [o1, o2] ≤ 23 && digitsVal [o3, o4] ≤ 59
  | _ => false

/-- Modelled from the spec: acceptor for "parses as RFC 3339 datetime"
(date, `T`/`t`/space separator, time, optional offset — the external parser
allows a missing offset). -/
def isDateTimeSpec (s : String) : Bool :=
  let cs := s.data
  isDateChars (cs.take 10) &&
  (match cs.drop 10 with
   | sep :: rest =>
     (sep == 'T' || sep == 't' || sep == ' ') &&
     (match rest.findIdx? (fun c => c == '+' || c == '-' || c == 'Z' || c == 'z') with
      | none => isTimeChars rest
      | some i => isTimeChars (rest.take i) && isOffsetChars (rest.drop i))
   | [] => false)

/-- Modelled from the spec: acceptor for "parses as time-of-day". -/
def isTimeSpec (s : String) : Bool :=
  isTimeChars s.data

/-- Modelled from the spec: acceptor for "parses as calendar date". -/
def isDateSpec (s : String) : Bool :=
  isDateChars s.data

/-- Groups of digits-then-unit, as in the designator part of an ISO 8601
duration; `fuel` bounds the recursion by the input length. -/
def durGroups (fuel : Nat) (units : List Char) (cs : List Char) : Bool :=
  match fuel, cs with
  | _, [] => true
  | 0, _ => false
  | fuel + 1, cs =>
    let ds := cs.takeWhile isAsciiDigit
    let rest := cs.dropWhile isAsciiDigit
    !ds.isEmpty &&
    (match rest with
     | u :: tl => units.contains u && durGroups fuel units tl
     | [] => false)

/-- Modelled from the spec: the `P`-form of "parses as ISO 8601 duration". -/
def isIsoDuration (cs : List Char) : Bool :=
  match cs with
  | 'P' :: rest =>
    !rest.isEmpty &&
    (match rest.findIdx? (fun c => c == 'T') with
     | none => durGroups rest.length ['Y', 'M', 'W', 'D'] rest
     | some i =>
       let tpart := rest.drop (i + 1)
       !tpart.isEmpty &&
       durGroups rest.length ['Y', 'M', 'W', 'D'] (rest.take i) &&
       durGroups tpart.length ['H', 'M', 'S'] tpart)
  | _ => false

/-- Modelled from the spec: the clock form of a duration
(`H+:MM:SS` with unbounded hours, optionally a fraction), which the external
duration parser accepts alongside the `P` form; §4.E's scrub literal
`55:55:55` and §8's idempotence law require it to classify as Duration. -/
def isClockDuration (cs : List Char) : Bool :=
  let hs := cs.takeWhile isAsciiDigit
  let rest := cs.dropWhile isAsciiDigit
  !hs.isEmpty &&
  (match rest with
   | ':' :: m1 :: m2 :: ':' :: s1 :: s2 :: rest2 =>
     [m1, m2, s1, s2].all isAsciiDigit &&
     digitsVal [m1, m2] ≤ 59 && digitsVal [s1, s2] ≤ 59 &&
     (match rest2 with
      | [] => true
      | '.' :: fs => !fs.isEmpty && fs.all isAsciiDigit
      | _ => false)
   | _ => false)

/-- Modelled from the spec: acceptor for "parses as ISO 8601 duration"
(plus the clock form, see `isClockDuration`). -/
def isDurationSpec (s : String) : Bool :=
  isIsoDuration s.data || isClockDuration s.data

/-- JSON insignificant whitespace. -/
def jsonSkipWs (cs : List Char) : List Char :=
  cs.dropWhile (fun c => c == ' ' || c == '\t' || c == '\n' || c == '\r')

/-- Consume the remainder of a JSON string after the opening quote,
honouring escapes; returns the text after the closing quote. -/
def jsonStringRest : List Char → Option (List Char)
  | [] => none
  | '"' :: rest => some rest
  | '\\' :: e :: rest =>
    if e == '"' || e == '\\' || e == '/' || e == 'b' || e == 'f' || e == 'n' ||
        e == 'r' || e == 't' then
      jsonStringRest rest
    else if e == 'u' then
      match rest with
      | a :: b :: c :: d :: rest2 =>
        if [a, b, c, d].all isAsciiHexDigit then jsonStringRest rest2 else none
      | _ => none
    else none
  | c :: rest => if c.toNat < 0x20 then none else jsonStringRest rest

/-- Consume a JSON number (RFC 8259 grammar); returns the remaining text. -/
def jsonNumber (cs : List Char) : Option (List Char) :=
  let cs := match cs with
    | '-' :: r => r
    | r => r
  let intRest : Option (List Char) :=
    match cs with
    | '0' :: r => some r
    | c :: r => if isAsciiDigit c && c != '0' then some (r.dropWhile isAsciiDigit) else none
    | [] => none
  match intRest with
  | none => none
  | some r =>
    let r := match r with
      | '.' :: r2 =>
        if (r2.takeWhile isAsciiDigit).isEmpty then [' ', '!']
        else r2.dropWhile isAsciiDigit
      | r2 => r2
    if r == [' ', '!'] then none
    else
      match r with
      | e :: r2 =>
        if e == 'e' || e == 'E' then
          let r3 := match r2 with
            | '+' :: r4 => r4
            | '-' :: r4 => r4
            | r4 => r4
          if (r3.takeWhile isAsciiDigit).isEmpty then none
          else some (r3.dropWhile isAsciiDigit)
        else some (e :: r2)
      | [] => some []

mutual

/-- Consume one JSON value; `fuel` bounds the nesting depth. -/
def jsonValue : Nat → List Char → Option (List Char)
  | 0, _ => none
  | fuel + 1, cs =>
    let cs := jsonSkipWs cs
    match cs with
    | 't' :: 'r' :: 'u' :: 'e' :: rest => some rest
    | 'f' :: 'a' :: 'l' :: 's' :: 'e' :: rest => some rest
    | 'n' :: 'u' :: 'l' :: 'l' :: rest => some rest
    | '"' :: rest => jsonStringRest rest
    | '[' :: rest =>
      let rest2 := jsonSkipWs rest
      (match rest2 with
       | ']' :: r => some r
       | _ => jsonElements fuel rest2)
    | '{' :: rest =>
      let rest2 := jsonSkipWs rest
      (match rest2 with
       | '}' :: r => some r
       | _ => jsonMembers fuel rest2)
    | _ => jsonNumber cs

/-- Consume the elements of a non-empty JSON array and the closing bracket. -/
def jsonElements : Nat → List Char → Option (List Char)
  | 0, _ => none
  | fuel + 1, cs =>
    match jsonValue fuel cs with
    | none => none
    | some rest =>
      match jsonSkipWs rest with
      | ',' :: r => jsonElements fuel (jsonSkipWs r)
      | ']' :: r => some r
      | _ => none

/-- Consume the members of a non-empty JSON object and the closing brace. -/
def jsonMembers : Nat → List Char → Option (List Char)
  | 0, _ => none
  | fuel + 1, cs =>
    match jsonSkipWs cs with
    | '"' :: rest =>
      (match jsonStringRest rest with
       | none => none
       | some r1 =>
         match jsonSkipWs r1 with
         | ':' :: r2 =>
           (match jsonValue fuel r2 with
            | none => none
            | some r3 =>
              match jsonSkipWs r3 with
              | ',' :: r4 => jsonMembers fuel r4
              | '}' :: r4 => some r4
              | _ => none)
         | _ => none)
    | _ => none

end

/-- Modelled from the spec: acceptor for "parses as well-formed JSON value"
(RFC 8259, fuel bounded by the input length). -/
def isJsonSpec (s : String) : Bool :=
  match jsonValue (s.data.length + 1) s.data with
  | some rest => (jsonSkipWs rest).isEmpty
  | none => false

/-- Modelled from the spec: the external parser bundle used wherever a claim
needs concrete classifications. -/
def specParsers : ExternalParsers where
  isF64 := isF64Rust
  isUuid := isUuidSpec
  isDateTime := isDateTimeSpec
  isTime := isTimeSpec
  isDate := isDateSpec
  isDuration := isDurationSpec
  isJson := isJsonSpec

/-! ### Claim C9: scrub/infer round-trip -/

/-- C9: for every classification with a scrub replacement literal
(String, Int, Float, Uuid, DateTime, Time, Date, Duration), re-running type
inference on the literal yields the same classification again
(`[redacted]` is String, `0` is Int, `0.123` is Float, the zero UUID is
Uuid, `1970-01-01T00:00:00Z` is DateTime, `00:00:00` is Time, `1970-01-01`
is Date, `55:55:55` is Duration); the classifications without a literal —
exactly Empty, Whitespace, Boolean and Json — are left unchanged by scrub. -/
theorem c9_scrub_infer_roundtrip :
    ∀ t : InferredType,
      (scrubValue t).elim
        (t = .empty ∨ t = .whitespace ∨ t = .boolean ∨ t = .json)
        (fun v => inferType specParsers v = t) := by
  intro t
  cases t <;> simp [scrubValue] <;> rfl

/-! ### Concrete ingested stores used by the claim theorems -/

/-- Token stream of `<r><b>42</b><b>hi</b></r>` (spec §8 scenario 3). -/
def tokensC1 : List XmlToken :=
  [.elementStart "" "r" 0, .elementEndOpen,
   .elementStart "" "b" 3, .elementEndOpen, .text "42" 6, .elementEndClose,
   .elementStart "" "b" 12, .elementEndOpen, .text "hi" 15, .elementEndClose,
   .elementEndClose]

/-- Scenario 3 ingested with `infer_types` on: root `r` is node 1, the two
`b` elements are nodes 2 and 4, their text children nodes 3 (`"42"`,
inferred `int`) and 5 (`"hi"`, inferred `string`). -/
def dbC1 : DocumentDb :=
  parseTokens specParsers { infer_types := true } tokensC1

/-- Store of `<r><a/><b/></r>`: `a` is node 2 (order 0), `b` node 3
(order 1), both children of the root node 1. -/
def dbSib : DocumentDb :=
  parseTokens specParsers {}
    [.elementStart "" "r" 0, .elementEndOpen,
     .elementStart "" "a" 3, .elementEndEmpty,
     .elementStart "" "b" 7, .elementEndEmpty,
     .elementEndClose]

/-- Store of `<r/>`: only the sentinel and the childless root element. -/
def dbR : DocumentDb :=
  parseTokens specParsers {} [.elementStart "" "r" 0, .elementEndEmpty]

/-- Store of `<R>AB</R>` ingested with `case_insensitive`: the element name
is stored lowercased, the text child is node 2. -/
def dbCase : DocumentDb :=
  parseTokens specParsers { case_insensitive := true }
    [.elementStart "" "R" 0, .elementEndOpen, .text "AB" 3, .elementEndClose]

/-- Store of `<r k="v"/>`: one attribute (id 1, NULL namespace) on the
root. -/
def dbAttr : DocumentDb :=
  parseTokens specParsers {}
    [.elementStart "" "r" 0, .attribute "" "k" "v" 3, .elementEndEmpty]

/-! ### Claim C1: redaction of scenario 3 with no ignore rules -/

/-- C1: evaluating `redact` on the ingested scenario-3 store with no ignore
rules leaves both text children unchanged (`"42"` and `"hi"` instead of the
claimed `"0"` and `"[redacted]"`): in the empty-rules branch the per-child
scrub type is looked up with the parent element's id, whose stored
classification is `empty`, and scrubbing with `empty` is a no-op. The store
itself is as scenario 3 requires: the text children are classified `int`
and `string`. -/
theorem c1_redact_uses_parent_type_for_children :
    (redact dbC1 dbC1 ⟨[], ⟨false⟩⟩ (fun _ _ => "") "").map
      (fun db2 => (nodeRawValue db2 3, nodeRawValue db2 5)) =
      .ok (.ok (some "42"), .ok (some "hi")) ∧
    inferredTypeQ dbC1 3 = .ok .int ∧
    inferredTypeQ dbC1 5 = .ok .string ∧
    inferredTypeQ dbC1 2 = .ok .empty ∧
    inferredTypeQ dbC1 4 = .ok .empty ∧
    (some "42" ≠ some "0" ∧ some "hi" ≠ some "[redacted]") := by
  refine ⟨rfl, rfl, rfl, rfl, rfl, by decide, by decide⟩

/-! ### Claim C2: previous/next sibling lookups -/

/-- C2: on `<r><a/><b/></r>` the previous-sibling query for `b` (node 3)
returns 1 — the shared parent's id, because the outer SELECT reads the
`parent_node_id` column of the found sibling row — although the sibling
with the greatest order below node 3 is node 2; symmetrically for the
next-sibling query. The fails-when-none part does hold (root has no
sibling). -/
theorem c2_sibling_query_returns_parent_id :
    prevSiblingElementId dbSib 3 = .ok 1 ∧
    nextSiblingElementId dbSib 2 = .ok 1 ∧
    ((dbSib.nodes.filter (fun r => r.parent_node_id == 1 &&
        r.node_order < 1)).map (·.node_id) = [2]) ∧
    (1 : Nat) ≠ 2 ∧
    prevSiblingElementId dbSib 2 = .error .queryReturnedNoRows ∧
    nextSiblingElementId dbSib 3 = .error .queryReturnedNoRows ∧
    prevSiblingElementId dbSib 1 = .error .queryReturnedNoRows := by
  refine ⟨rfl, rfl, rfl, by decide, rfl, rfl, rfl⟩

/-! ### Claim C4: the selector adapter's `is_empty` -/

/-- C4: the root of `<r/>` is an element with no children, yet the adapter's
`is_empty` answers `false` — it returns `has_children` without negating it —
so `is_empty` is not the negation of `has_children` as claimed (the two
agree in value instead of being opposite). -/
theorem c4_is_empty_equals_has_children :
    elementQ dbR 1 = .ok ⟨1, none, "r"⟩ ∧
    hasChildren dbR 1 = .ok false ∧
    selectIsEmpty dbR 1 = .ok false ∧
    selectIsEmpty dbR 1 ≠ .ok true := by
  refine ⟨rfl, rfl, rfl, fun h => ?_⟩
  rw [show selectIsEmpty dbR 1 = Except.ok false from rfl] at h
  exact Bool.noConfusion (Except.ok.inj h)

/-! ### Claim C7: `descendent_nodes` -/

/-- C7: `descendent_nodes` fails with a column-type error for every node
that has at least one descendant of any kind (its row mapper reads the
`node_ns` TEXT/NULL column as the `u8` node type and indexes past the
three selected columns); it only returns — the empty list — for leaves.
The element-only `descendents` walk works as documented. -/
theorem c7_descendent_nodes_mapper_mismatch :
    descendentNodes dbC1 0 = .error .invalidColumnType ∧
    descendentNodes dbC1 1 = .error .invalidColumnType ∧
    descendentNodes dbC1 2 = .error .invalidColumnType ∧
    descendentNodes dbC1 3 = .ok [] ∧
    descendents dbC1 0 = .ok [⟨1, none, "r"⟩, ⟨2, none, "b"⟩, ⟨4, none, "b"⟩] ∧
    childNodes dbC1 2 = .ok [.text 3 "42"] := by
  refine ⟨rfl, rfl, rfl, rfl, rfl, rfl⟩

/-! ### Claim C5: lowercasing under `case_insensitive` -/

/-- C5 counterexample: ingesting `<R>AB</R>` with `case_insensitive` stores
the element name lowercased (`"r"`) but the text child's value as `"AB"`,
not its lowercase `"ab"`: the `Token::Text` arm only trims, it never applies
`mutate_text`. -/
theorem c5_text_not_lowercased_cex :
    dbCase.options.case_insensitive = true ∧
    elementQ dbCase 1 = .ok ⟨1, none, "r"⟩ ∧
    nodeRawValue dbCase 2 = .ok (some "AB") ∧
    rustToLowercase "AB" = "ab" ∧
    ("AB" : String) ≠ "ab" := by
  refine ⟨rfl, rfl, rfl, rfl, by decide⟩

/-- Unfolding of `Char.toLower` into if-then-else form. -/
theorem charToLower_eq (c : Char) :
    c.toLower = if c.toNat ≥ 65 ∧ c.toNat ≤ 90 then Char.ofNat (c.toNat + 32) else c := rfl

/-- Unicode simple lowercasing is idempotent on characters. -/
theorem charToLower_idem (c : Char) : (c.toLower).toLower = c.toLower := by
  rw [charToLower_eq c]
  by_cases h : c.toNat ≥ 65 ∧ c.toNat ≤ 90
  · rw [if_pos h, charToLower_eq]
    have hv : (Char.ofNat (c.toNat + 32)).toNat = c.toNat + 32 :=
      charOfNat_toNat _ (by omega) (by omega)
    rw [if_neg (by rw [hv]; omega)]
  · rw [if_neg h, charToLower_eq, if_neg h]

/-- Lowercasing a string twice is the same as lowercasing it once. -/
theorem rustToLowercase_idem (s : String) :
    rustToLowercase (rustToLowercase s) = rustToLowercase s := by
  unfold rustToLowercase
  rw [stringMk_eq_iff]
  show (s.data.map Char.toLower).map Char.toLower = s.data.map Char.toLower
  rw [List.map_map]
  exact List.map_congr_left fun c _ => charToLower_idem c

/-- A string is "already lowercased" when lowercasing it again changes
nothing. -/
def isLowercased (s : String) : Bool :=
  rustToLowercase s == s

/-- Outputs of `mutate_text` under `case_insensitive` are already
lowercased. -/
theorem mutateText_isLowercased (options : ParseOptions) (t : String)
    (hci : options.case_insensitive = true) :
    isLowercased (mutateText options t) = true := by
  unfold mutateText
  rcases h : options.ignore_whitespace
  all_goals rw [hci]
  all_goals simp [isLowercased, rustToLowercase_idem]

/-- The part of invariant 6 that the code maintains: every stored element
name, element namespace, attribute name and attribute namespace is already
lowercased. -/
def namesLowercased (db : DocumentDb) : Prop :=
  (∀ r ∈ db.nodes,
    (∀ nm, r.node_name = some nm → isLowercased nm = true) ∧
    (∀ ns, r.node_ns = some ns → isLowercased ns = true)) ∧
  (∀ a ∈ db.attrs,
    isLowercased a.attr_name = true ∧
    (∀ ns, a.attr_ns = some ns → isLowercased ns = true))

/-- `insert_node` preserves the lowercased-names invariant when the inserted
name and namespace are lowercased. -/
theorem namesLowercased_insertNodeRow (P : ExternalParsers) (db : DocumentDb)
    (node_id parent_node_id : Nat) (nt : NodeType) (ns nm v : Option String)
    (pos ord : Nat) (h : namesLowercased db)
    (hns : ∀ s, ns = some s → isLowercased s = true)
    (hnm : ∀ s, nm = some s → isLowercased s = true) :
    namesLowercased (insertNodeRow P db node_id parent_node_id nt ns nm v pos ord) := by
  constructor
  · intro r hr
    rcases List.mem_append.mp hr with h1 | h1
    · exact h.1 r h1
    · rcases List.mem_singleton.mp h1 with rfl
      exact ⟨hnm, hns⟩
  · exact h.2

/-- `insert_attr` preserves the lowercased-names invariant when the inserted
name and namespace are lowercased. -/
theorem namesLowercased_insertAttrRow (P : ExternalParsers) (db : DocumentDb)
    (parent_node_id : Nat) (ns : Option String) (nm v : String) (pos ord : Nat)
    (h : namesLowercased db)
    (hns : ∀ s, ns = some s → isLowercased s = true)
    (hnm : isLowercased nm = true) :
    namesLowercased (insertAttrRow P db parent_node_id ns nm v pos ord) := by
  constructor
  · exact h.1
  · intro a ha
    rcases List.mem_append.mp ha with h1 | h1
    · exact h.2 a h1
    · rcases List.mem_singleton.mp h1 with rfl
      exact ⟨hnm, hns⟩

/-- `insert_root_element` preserves the lowercased-names invariant when the
written name and namespace are lowercased. -/
theorem namesLowercased_insertRootElement (db : DocumentDb) (ns nm : Option String)
    (pos ord : Nat) (h : namesLowercased db)
    (hns : ∀ s, ns = some s → isLowercased s = true)
    (hnm : ∀ s, nm = some s → isLowercased s = true) :
    namesLowercased (insertRootElement db ns nm pos ord) := by
  constructor
  · intro r hr
    rcases List.mem_map.mp hr with ⟨r0, hr0, hmap⟩
    by_cases h1 : r0.node_id == 1
    · rw [if_pos h1] at hmap
      rcases hmap.symm with rfl
      exact ⟨hnm, hns⟩
    · rw [if_neg h1] at hmap
      rcases hmap.symm with rfl
      exact h.1 _ hr0
  · exact h.2

/-- The optional-prefix conversion in `parseStep` yields lowercased values
under `case_insensitive`. -/
theorem optionalMutated_isLowercased (options : ParseOptions)
    (hci : options.case_insensitive = true) (pfx : String) :
    ∀ s, (if pfx != "" then some (mutateText options pfx) else none) = some s →
      isLowercased s = true := by
  intro s hs
  by_cases hp : pfx != ""
  · rw [if_pos hp] at hs
    rcases Option.some.inj hs with rfl
    exact mutateText_isLowercased options pfx hci
  · rw [if_neg hp] at hs
    exact absurd hs (Option.noConfusion)

/-- One parse step preserves the lowercased-names invariant under
`case_insensitive`. -/
theorem parseStep_preserves_namesLowercased (P : ExternalParsers)
    (options : ParseOptions) (hci : options.case_insensitive = true)
    (acc : ParserState × Nat × DocumentDb) (tok : XmlToken)
    (h : namesLowercased acc.2.2) :
    namesLowercased ((parseStep P options acc tok).2.2) := by
  obtain ⟨st, cnt, db⟩ := acc
  cases tok with
  | declaration pos =>
    exact namesLowercased_insertNodeRow P db cnt st.parentNodeId .declaration none none
      none pos st.currentOrder h
      (fun s hs => Option.noConfusion hs) (fun s hs => Option.noConfusion hs)
  | processingInstruction pos =>
    exact namesLowercased_insertNodeRow P db cnt st.parentNodeId .processingInstruction
      none none none pos st.currentOrder h
      (fun s hs => Option.noConfusion hs) (fun s hs => Option.noConfusion hs)
  | comment t pos =>
    exact namesLowercased_insertNodeRow P db cnt st.parentNodeId .comment none none
      (some (rawTextValue options t)) pos st.currentOrder h
      (fun s hs => Option.noConfusion hs) (fun s hs => Option.noConfusion hs)
  | dtdStart pos =>
    exact namesLowercased_insertNodeRow P db cnt st.parentNodeId .doctype none none
      none pos st.currentOrder h
      (fun s hs => Option.noConfusion hs) (fun s hs => Option.noConfusion hs)
  | emptyDtd => exact h
  | entityDeclaration => exact h
  | dtdEnd => exact h
  | elementStart pfx localName pos =>
    show namesLowercased (parseStartEvent P (mutateText options localName)
      (if pfx != "" then some (mutateText options pfx) else none) pos st cnt db).2.2
    unfold parseStartEvent
    cases hcur : st.current with
    | document =>
      exact namesLowercased_insertRootElement db
        (if pfx != "" then some (mutateText options pfx) else none)
        (some (mutateText options localName)) pos st.currentOrder h
        (optionalMutated_isLowercased options hci pfx)
        (fun s hs => by
          rcases Option.some.inj hs with rfl
          exact mutateText_isLowercased options localName hci)
    | root =>
      exact namesLowercased_insertNodeRow P db cnt st.parentNodeId .element
        (if pfx != "" then some (mutateText options pfx) else none)
        (some (mutateText options localName)) none pos st.currentOrder h
        (optionalMutated_isLowercased options hci pfx)
        (fun s hs => by
          rcases Option.some.inj hs with rfl
          exact mutateText_isLowercased options localName hci)
    | element i =>
      exact namesLowercased_insertNodeRow P db cnt st.parentNodeId .element
        (if pfx != "" then some (mutateText options pfx) else none)
        (some (mutateText options localName)) none pos st.currentOrder h
        (optionalMutated_isLowercased options hci pfx)
        (fun s hs => by
          rcases Option.some.inj hs with rfl
          exact mutateText_isLowercased options localName hci)
  | «attribute» pfx localName v pos =>
    refine namesLowercased_insertAttrRow P db st.parentNodeId
      (if pfx != "" then some (mutateText options pfx) else none)
      ((if localName != "" then some (mutateText options localName) else none).getD "")
      v pos st.currentOrder h
      (optionalMutated_isLowercased options hci pfx) ?_
    by_cases hl : localName != ""
    · rw [if_pos hl]
      exact mutateText_isLowercased options localName hci
    · rw [if_neg hl]
      rfl
  | elementEndOpen => exact h
  | elementEndClose => exact h
  | elementEndEmpty => exact h
  | text t pos =>
    exact namesLowercased_insertNodeRow P db cnt st.parentNodeId .text none none
      (some (rawTextValue options t)) pos st.currentOrder h
      (fun s hs => Option.noConfusion hs) (fun s hs => Option.noConfusion hs)
  | cdata t pos =>
    exact namesLowercased_insertNodeRow P db cnt st.parentNodeId .cdata none none
      (some (rawTextValue options t)) pos st.currentOrder h
      (fun s hs => Option.noConfusion hs) (fun s hs => Option.noConfusion hs)

/-- Folding a step function preserves any invariant each step preserves. -/
theorem foldl_preserve {α β : Type} (f : β → α → β) (Q : β → Prop)
    (hstep : ∀ b a, Q b → Q (f b a)) : ∀ (l : List α) (b), Q b → Q (l.foldl f b)
  | [], _, hb => hb
  | a :: l, b, hb => foldl_preserve f Q hstep l (f b a) (hstep b a hb)

/-- C5 (amended): when `case_insensitive` is active at ingest, every stored
element name, element namespace prefix, attribute name and attribute
namespace prefix is already lowercased; text content is not lowercased
(`rawTextValue` only trims under `ignore_whitespace`, as
`c5_text_not_lowercased_cex` exhibits). -/
theorem c5_names_lowercased_amended (P : ExternalParsers) (options : ParseOptions)
    (hci : options.case_insensitive = true) (tokens : List XmlToken) :
    namesLowercased (parseTokens P options tokens) ∧
    (∀ t, rawTextValue options t =
      if options.ignore_whitespace then rustTrim t else t) := by
  constructor
  · unfold parseTokens
    refine (foldl_preserve (parseStep P options) (fun acc => namesLowercased acc.2.2)
      (fun b a hb => parseStep_preserves_namesLowercased P options hci b a hb)
      tokens _ ?_)
    constructor
    · intro r hr
      unfold emptyDb at hr
      rcases List.mem_cons.mp hr with rfl | hr2
      · exact ⟨fun nm hnm => Option.noConfusion hnm, fun ns hns => Option.noConfusion hns⟩
      · rcases List.mem_cons.mp hr2 with rfl | hr3
        · exact ⟨fun nm hnm => Option.noConfusion hnm, fun ns hns => Option.noConfusion hns⟩
        · cases hr3
    · intro a ha
      unfold emptyDb at ha
      cases ha
  · intro t
    rfl

/-- Witness for `c5_names_lowercased_amended` at the concrete case-folded
store `dbCase`. -/
theorem c5_names_lowercased_amended_witness :
    namesLowercased dbCase ∧
    (∀ t, rawTextValue { case_insensitive := true } t =
      if ({ case_insensitive := true } : ParseOptions).ignore_whitespace
      then rustTrim t else t) :=
  c5_names_lowercased_amended specParsers { case_insensitive := true } rfl
    [.elementStart "" "R" 0, .elementEndOpen, .text "AB" 3, .elementEndClose]

/-! ### Lemmas about the row-collection and sorting helpers -/

/-- Every member of a successful `collectRows` result comes from a source row
that mapped to it. -/
theorem collectRows_ok_mem {α β : Type} {f : α → Except DbError β} :
    ∀ {l : List α} {out : List β}, collectRows f l = .ok out →
      ∀ x ∈ out, ∃ r ∈ l, f r = .ok x := by
  intro l
  induction l with
  | nil =>
    intro out h x hx
    rcases Except.ok.inj h with rfl
    cases hx
  | cons r rs ih =>
    intro out h x hx
    unfold collectRows at h
    rcases hf : f r with e | x0
    · rw [hf] at h
      cases h
    · rw [hf] at h
      rcases hrec : collectRows f rs with e | xs
      · rw [hrec] at h
        cases h
      · rw [hrec] at h
        rcases Except.ok.inj h with rfl
        rcases List.mem_cons.mp hx with rfl | hx2
        · exact ⟨r, List.mem_cons_self r rs, hf⟩
        · rcases ih hrec x hx2 with ⟨r2, hr2, hfr2⟩
          exact ⟨r2, List.mem_cons_of_mem r hr2, hfr2⟩

/-- A successful `collectRows` means every source row mapped successfully. -/
theorem collectRows_ok_sources {α β : Type} {f : α → Except DbError β} :
    ∀ {l : List α} {out : List β}, collectRows f l = .ok out →
      ∀ r ∈ l, ∃ x, f r = .ok x := by
  intro l
  induction l with
  | nil =>
    intro out _ r hr
    cases hr
  | cons r0 rs ih =>
    intro out h r hr
    unfold collectRows at h
    rcases hf : f r0 with e | x0
    · rw [hf] at h
      cases h
    · rw [hf] at h
      rcases hrec : collectRows f rs with e | xs
      · rw [hrec] at h
        cases h
      · rcases List.mem_cons.mp hr with rfl | hr2
        · exact ⟨x0, hf⟩
        · exact ih hrec r hr2

/-- Membership is invariant under `insertByOrder`. -/
theorem mem_insertByOrder {x r : NodeRow} :
    ∀ {l : List NodeRow}, x ∈ insertByOrder r l ↔ x = r ∨ x ∈ l := by
  intro l
  induction l with
  | nil => simp [insertByOrder]
  | cons y ys ih =>
    unfold insertByOrder
    by_cases hy : y.node_order ≤ r.node_order
    · rw [if_pos hy]
      simp only [List.mem_cons, ih]
      tauto
    · rw [if_neg hy]
      simp only [List.mem_cons]

/-- Membership is invariant under `sortByNodeOrder`. -/
theorem mem_sortByNodeOrder {x : NodeRow} :
    ∀ {l : List NodeRow}, x ∈ sortByNodeOrder l ↔ x ∈ l := by
  intro l
  induction l with
  | nil => simp [sortByNodeOrder]
  | cons y ys ih =>
    show x ∈ insertByOrder y (sortByNodeOrder ys) ↔ _
    rw [mem_insertByOrder]
    simp only [List.mem_cons, ih]

/-- A successful `RawNode` conversion keeps the row's node id. -/
theorem rawNodeInto_nodeId {i : Nat} {nt : NodeType} {ns nm v : Option String}
    {x : NodeRec} (h : rawNodeInto i nt ns nm v = .ok x) : x.nodeId = i := by
  cases nt
  all_goals first
    | (rcases Except.ok.inj h with rfl; rfl)
    | exact Except.noConfusion h

/-- The `descendent_nodes` row mapper fails on every row: it reads the
TEXT/NULL `node_ns` column as a `u8`. -/
theorem descNodesMapper_error (r : NodeRow) :
    descNodesMapper r = .error .invalidColumnType := by
  cases hns : r.node_ns with
  | none =>
    show descNodesMapper { r with node_ns := r.node_ns } = _
    rw [hns]
    rfl
  | some s =>
    show descNodesMapper { r with node_ns := r.node_ns } = _
    rw [hns]
    rfl

/-! ### Claim C6: attribute lookup namespace handling -/

/-- C6 counterexample: on `<r k="v"/>` the NULL-namespace lookup finds the
attribute but the `Some("")` lookup finds nothing — the SQL `attr_ns = ''`
comparison is satisfied by no stored attribute — so the two calls do not
behave identically on `attr_by_name` itself. -/
theorem c6_empty_ns_not_none_cex :
    attrByName dbAttr 1 "k" none = .ok (some ⟨1, none, "k", "v"⟩) ∧
    attrByName dbAttr 1 "k" (some "") = .ok none ∧
    attrByName dbAttr 1 "k" (some "") ≠ attrByName dbAttr 1 "k" none := by
  refine ⟨rfl, rfl, fun h => ?_⟩
  rw [show attrByName dbAttr 1 "k" (some "") = .ok none from rfl,
    show attrByName dbAttr 1 "k" none = .ok (some ⟨1, none, "k", "v"⟩) from rfl] at h
  exact Option.noConfusion (Except.ok.inj h)

/-- C6 (amended): `attr_by_name(n, k, None)` matches only attributes with a
NULL namespace; `attr_by_name(n, k, Some(""))` filters `attr_ns = ''` and
therefore matches nothing on a store whose attributes never carry an
empty-string namespace (ingest stores empty prefixes as NULL); the
empty-string-to-None normalisation lives in the selector adapter
`attr_matches`, which hands `attr_by_name` a `None` constraint. -/
theorem c6_attr_ns_matching_amended :
    (∀ (db : DocumentDb) (n : Nat) (k : String) (a : Attr),
      attrByName db n k none = .ok (some a) →
      a.ns = none ∧ ∃ row ∈ db.attrs, row.parent_node_id = n ∧ row.attr_ns = none ∧
        row.attr_id = a.attr_id ∧ row.attr_value = a.value) ∧
    (∀ (db : DocumentDb) (n : Nat) (k : String),
      (∀ row ∈ db.attrs, row.attr_ns ≠ some "") →
      attrByName db n k (some "") = .ok none) ∧
    normalizeNsConstraint (.specific "") = none ∧
    (∀ (db : DocumentDb) (n : Nat) (k : String),
      attrMatchesLookup db n k (.specific "") = attrByName db n k none) := by
  refine ⟨?_, ?_, rfl, fun db n k => rfl⟩
  · intro db n k a h
    simp only [attrByName] at h
    rcases Option.map_eq_some'.mp (Except.ok.inj h) with ⟨row, hfind, hfa⟩
    have hmem := List.mem_of_find?_eq_some hfind
    have hp := List.find?_some hfind
    rcases Bool.and_eq_true _ _ |>.mp hp with ⟨hp1, hp3⟩
    rcases Bool.and_eq_true _ _ |>.mp hp1 with ⟨hp1a, _⟩
    rcases hfa.symm with rfl
    refine ⟨rfl, row, hmem, beq_iff_eq.mp hp1a, ?_, rfl, rfl⟩
    have := beq_iff_eq.mp hp3
    simpa using this
  · intro db n k hno
    simp only [attrByName]
    rw [List.find?_eq_none.mpr]
    · rfl
    · intro row hrow hp
      rcases Bool.and_eq_true _ _ |>.mp hp with ⟨_, hp3⟩
      exact hno row hrow (by simpa using (beq_iff_eq.mp hp3))

/-- Witness for `c6_attr_ns_matching_amended` at the store of `<r k="v"/>`. -/
theorem c6_attr_ns_matching_amended_witness :
    ((⟨1, none, "k", "v"⟩ : Attr).ns = none ∧
      ∃ row ∈ dbAttr.attrs, row.parent_node_id = 1 ∧ row.attr_ns = none ∧
        row.attr_id = (⟨1, none, "k", "v"⟩ : Attr).attr_id ∧
        row.attr_value = (⟨1, none, "k", "v"⟩ : Attr).value) ∧
    attrByName dbAttr 1 "k" (some "") = .ok none :=
  ⟨c6_attr_ns_matching_amended.1 dbAttr 1 "k" ⟨1, none, "k", "v"⟩ rfl,
   c6_attr_ns_matching_amended.2.1 dbAttr 1 "k" (by decide)⟩

/-! ### Claim C8: the document sentinel and traversal queries -/

/-- C8 counterexample: the root element (node 1, present in every store)
has the document sentinel as parent, so `parent_element_id(1)` returns 0. -/
theorem c8_parent_of_root_is_sentinel_cex :
    parentElementId dbR 1 = .ok 0 ∧
    elementQ dbR 1 = .ok ⟨1, none, "r"⟩ := by
  exact ⟨rfl, rfl⟩

/-- The element row mapper used by `children`/`descendents` keeps the row's
node id. -/
theorem elementRowMapper_nodeId {r : NodeRow} {e : Element}
    (h : (match r.node_name with
      | some nm => Except.ok (⟨r.node_id, r.node_ns, nm⟩ : Element)
      | none => Except.error DbError.invalidColumnType) = .ok e) :
    e.node_id = r.node_id := by
  rcases hm : r.node_name with _ | nm
  · rw [hm] at h
    exact Except.noConfusion h
  · rw [hm] at h
    rcases Except.ok.inj h with rfl
    rfl

/-- C8 (amended): `child_nodes` (which filters `node_id != 0` explicitly),
`children` and `descendents` (whose element-type filter excludes the
sentinel's Document row) never return a node with id 0, and
`descendent_nodes` never returns any node at all (its only successful result
is the empty list); the parent queries, however, do return 0 — the stored
parent of the root element — as `c8_parent_of_root_is_sentinel_cex` shows. -/
theorem c8_traversal_never_returns_sentinel (db : DocumentDb) (n : Nat)
    (hdoc : ∀ r ∈ db.nodes, r.node_id = 0 → r.node_type = .document) :
    (∀ out, childNodes db n = .ok out → ∀ x ∈ out, x.nodeId ≠ 0) ∧
    (∀ out, childrenQ db n = .ok out → ∀ e ∈ out, e.node_id ≠ 0) ∧
    (∀ out, descendents db n = .ok out → ∀ e ∈ out, e.node_id ≠ 0) ∧
    (∀ out, descendentNodes db n = .ok out → out = []) := by
  refine ⟨?_, ?_, ?_, ?_⟩
  · intro out h x hx
    simp only [childNodes] at h
    rcases collectRows_ok_mem h x hx with ⟨r, hr, hfr⟩
    rcases List.mem_filter.mp (mem_sortByNodeOrder.mp hr) with ⟨_, hp⟩
    rcases Bool.and_eq_true _ _ |>.mp hp with ⟨_, hid⟩
    rw [rawNodeInto_nodeId hfr]
    exact bne_iff_ne.mp hid
  · intro out h e he
    simp only [childrenQ] at h
    rcases collectRows_ok_mem h e he with ⟨r, hr, hfr⟩
    rcases List.mem_filter.mp (mem_sortByNodeOrder.mp hr) with ⟨hmem, hp⟩
    rcases Bool.and_eq_true _ _ |>.mp hp with ⟨_, hel⟩
    rw [elementRowMapper_nodeId hfr]
    intro h0
    have := hdoc r hmem h0
    rw [this] at hel
    exact NodeType.noConfusion (beq_iff_eq.mp hel)
  · intro out h e he
    simp only [descendents] at h
    rcases collectRows_ok_mem h e he with ⟨r, hr, hfr⟩
    rcases List.mem_filter.mp hr with ⟨hmem, hp⟩
    rcases Bool.and_eq_true _ _ |>.mp hp with ⟨hel, _⟩
    rw [elementRowMapper_nodeId hfr]
    intro h0
    have := hdoc r hmem h0
    rw [this] at hel
    exact NodeType.noConfusion (beq_iff_eq.mp hel)
  · intro out h
    simp only [descendentNodes] at h
    rcases hrows : db.nodes.filter
        (fun r => (descClosure db n).contains r.parent_node_id) with _ | ⟨r, rs⟩
    · rw [hrows] at h
      exact (Except.ok.inj h).symm
    · rw [hrows] at h
      rcases collectRows_ok_sources h r (List.mem_cons_self r rs) with ⟨x, hx⟩
      rw [descNodesMapper_error] at hx
      exact Except.noConfusion hx

/-- Witness for `c8_traversal_never_returns_sentinel` on the scenario-3
store: the child nodes of the sentinel are just the root element. -/
theorem c8_traversal_never_returns_sentinel_witness :
    (NodeRec.element ⟨1, none, "r"⟩).nodeId ≠ 0 :=
  (c8_traversal_never_returns_sentinel dbC1 0 (by decide)).1
    [NodeRec.element ⟨1, none, "r"⟩] rfl _ (List.mem_singleton.mpr rfl)

/-! ### Claim C10: NotFound for single-row reads, empty for multi-row reads -/

/-- With no node referencing an id, the CTE step leaves the seed set
unchanged. -/
theorem descStep_fixed (db : DocumentDb) (n : Nat)
    (hpar : ∀ r ∈ db.nodes, r.parent_node_id ≠ n) :
    descStep db [n] = [n] := by
  unfold descStep
  rw [List.filter_eq_nil_iff.mpr, List.map_nil, List.dedup_nil, List.append_nil]
  intro r hr hp
  rcases Bool.and_eq_true _ _ |>.mp hp with ⟨hc, _⟩
  exact hpar r hr (by simpa using hc)

/-- Iterating the fixed CTE step stays at the seed set. -/
theorem descIter_fixed (db : DocumentDb) (n : Nat)
    (hpar : ∀ r ∈ db.nodes, r.parent_node_id ≠ n) :
    ∀ k, descIter db k [n] = [n] := by
  intro k
  induction k with
  | zero => rfl
  | succ k ih =>
    show descIter db k (descStep db [n]) = [n]
    rw [descStep_fixed db n hpar]
    exact ih

/-- C10: every single-row read (element, node, buffer positions, parent and
sibling lookups, raw values, inferred types — the latter on stores built
with inference) fails with the NotFound-style `QueryReturnedNoRows` when the
given id does not exist, and every multi-row read (child_nodes, children,
children_by_name, attrs, descendents, elements_matching_attr_value) returns
the empty list, not an error, when the id is unknown or nothing matches. -/
theorem c10_notfound_vs_empty (db : DocumentDb) (n : Nat)
    (hnode : ∀ r ∈ db.nodes, r.node_id ≠ n)
    (hpar : ∀ r ∈ db.nodes, r.parent_node_id ≠ n)
    (hattr : ∀ a ∈ db.attrs, a.attr_id ≠ n)
    (hattrpar : ∀ a ∈ db.attrs, a.parent_node_id ≠ n)
    (hinfer : db.options.infer_types = true) :
    elementQ db n = .error .queryReturnedNoRows ∧
    nodeQ db n = .error .queryReturnedNoRows ∧
    bufferPositionQ db n = .error .queryReturnedNoRows ∧
    parentElementId db n = .error .queryReturnedNoRows ∧
    prevSiblingElementId db n = .error .queryReturnedNoRows ∧
    nextSiblingElementId db n = .error .queryReturnedNoRows ∧
    inferredTypeQ db n = .error .queryReturnedNoRows ∧
    nodeRawValue db n = .error .queryReturnedNoRows ∧
    attrQ db n = .error .queryReturnedNoRows ∧
    attrBufferPositionQ db n = .error .queryReturnedNoRows ∧
    attrInferredTypeQ db n = .error .queryReturnedNoRows ∧
    attrRawValue db n = .error .queryReturnedNoRows ∧
    childNodes db n = .ok [] ∧
    childrenQ db n = .ok [] ∧
    (∀ nm, childrenByName db n nm = .ok []) ∧
    attrsQ db n = .ok [] ∧
    descendents db n = .ok [] ∧
    (∀ k v, (∀ a ∈ db.attrs,
        ¬(a.attr_name = (if db.options.case_insensitive
            then rustToLowercase k else k) ∧ a.attr_value = v)) →
      elementsMatchingAttrValue db k v = .ok []) := by
  have hfind : findNode db n = none := by
    rw [findNode, List.find?_eq_none]
    intro r hr hp
    exact hnode r hr (beq_iff_eq.mp hp)
  have hfinda : findAttr db n = none := by
    rw [findAttr, List.find?_eq_none]
    intro a ha hp
    exact hattr a ha (beq_iff_eq.mp hp)
  have hfilpar : ∀ (p : NodeRow → Bool),
      db.nodes.filter (fun r => (r.parent_node_id == n) && p r) = [] := by
    intro p
    rw [List.filter_eq_nil_iff]
    intro r hr hp
    exact hpar r hr (beq_iff_eq.mp (Bool.and_eq_true _ _ |>.mp hp).1)
  refine ⟨?_, ?_, ?_, ?_, ?_, ?_, ?_, ?_, ?_, ?_, ?_, ?_, ?_, ?_, ?_, ?_, ?_, ?_⟩
  · simp only [elementQ]
    rw [List.find?_eq_none.mpr]
    intro r hr hp
    exact hnode r hr (beq_iff_eq.mp (Bool.and_eq_true _ _ |>.mp hp).1)
  · simp only [nodeQ, hfind]
  · simp only [bufferPositionQ, hfind]
  · simp only [parentElementId, hfind]
  · simp only [prevSiblingElementId, hfind, Option.map_none', Bool.false_and,
      List.filter_false, maxByOrder, List.foldl_nil]
  · simp only [nextSiblingElementId, hfind, Option.map_none', Bool.false_and,
      List.filter_false, minByOrder, List.foldl_nil]
  · simp only [inferredTypeQ, hinfer, hfind, Bool.not_true, Bool.false_eq_true,
      if_false]
  · simp only [nodeRawValue, hfind]
  · simp only [attrQ, hfinda]
  · simp only [attrBufferPositionQ, hfinda]
  · simp only [attrInferredTypeQ, hinfer, hfinda, Bool.not_true, Bool.false_eq_true,
      if_false]
  · simp only [attrRawValue, hfinda]
  · simp only [childNodes, hfilpar]
    rfl
  · simp only [childrenQ, hfilpar]
    rfl
  · intro nm
    simp only [childrenByName]
    rw [show (db.nodes.filter (fun r =>
        r.parent_node_id == n && r.node_type == NodeType.element &&
        r.node_name == some (if db.options.case_insensitive
          then rustToLowercase nm else nm))) = [] from ?_]
    · rfl
    · rw [List.filter_eq_nil_iff]
      intro r hr hp
      exact hpar r hr (beq_iff_eq.mp
        ((Bool.and_eq_true _ _ |>.mp (Bool.and_eq_true _ _ |>.mp hp).1).1))
  · simp only [attrsQ]
    rw [List.filter_eq_nil_iff.mpr, List.map_nil]
    intro a ha hp
    exact hattrpar a ha (beq_iff_eq.mp hp)
  · simp only [descendents, descClosure, descIter_fixed db n hpar]
    rw [List.filter_eq_nil_iff.mpr]
    · rfl
    · intro r hr hp
      exact hpar r hr (by simpa using (Bool.and_eq_true _ _ |>.mp hp).2)
  · intro k v hno
    simp only [elementsMatchingAttrValue]
    rw [List.filter_eq_nil_iff.mpr, List.filterMap_nil]
    · rfl
    · intro a ha hp
      rcases Bool.and_eq_true _ _ |>.mp hp with ⟨h1, h2⟩
      exact hno a ha ⟨beq_iff_eq.mp h1, beq_iff_eq.mp h2⟩

/-- Witness for `c10_notfound_vs_empty` at the unknown id 99 of the
scenario-3 store. -/
theorem c10_notfound_vs_empty_witness :
    elementQ dbC1 99 = .error .queryReturnedNoRows ∧
    prevSiblingElementId dbC1 99 = .error .queryReturnedNoRows ∧
    childNodes dbC1 99 = .ok [] ∧
    childrenByName dbC1 99 "x" = .ok [] ∧
    descendents dbC1 99 = .ok [] ∧
    elementsMatchingAttrValue dbC1 "q" "w" = .ok [] := by
  obtain ⟨h1, _, _, _, h5, _, _, _, _, _, _, _, h13, _, h15, _, h17, h18⟩ :=
    c10_notfound_vs_empty dbC1 99 (by decide) (by decide) (by decide) (by decide) rfl
  exact ⟨h1, h5, h13, h15 "x", h17, h18 "q" "w" (by decide)⟩
